import Mathlib

/-!
Shallow embedding of the clinical rule engine and recurring-task scheduler of
the ward-care dashboard (src/app.py, with the record-store schema from
src/ehr_bezugspflege_sqlite.py).

Modelling conventions:
* The SQLite record store is a record of row lists (`DB`); `INSERT` appends at
  the end of the list (rows display in primary-key order, and fresh ids are
  drawn from the monotone counters `next_task_id` / `next_med_id`),
  `DELETE ... WHERE` is `List.filter`, and `UPDATE ... WHERE` is `List.map`.
* Timestamps (ISO strings in the source, always compared through SQLite
  `datetime(...)`, which is monotone in the encoded instant) are modelled as
  `Nat` minutes.  A nullable/unparseable `TEXT` timestamp column is
  `Option Nat`, `none` standing for SQL `NULL`; `datetime(NULL) > x` is never
  true, which the comparison helpers reproduce.
* `temperature` is a REAL column compared against constants like 38.5; it is
  modelled in tenths of a degree (so the threshold 38.5 becomes 385).
* Nullable numeric columns are `Option Int`.  Python reads them either with a
  truthiness guard (`a["x"] and a["x"] >= c`, false for NULL and for 0) or
  with an explicit `a["x"] is not None` guard; the two are modelled by
  distinct helpers (`truthyGe` vs `someGe`, etc.).
* Python string lowering / SQLite LIKE case folding are modelled by the ASCII
  `Char.toLower` on the character list; `str.strip()` by trimming ASCII
  whitespace.  All keyword constants in the source are already lower case
  ASCII where it matters.
* `list(set(...))` in `extract_problems_from_nurse_notes` has a
  process-deterministic but unspecified order in Python; it is modelled as
  order-preserving deduplication.  No claim below depends on the relative
  order of the (equally weighted) note-derived problems.
* Python's `list.sort` is a stable sort; it is modelled by a stable insertion
  sort (`stableSortByKey`), which agrees with every stable sort.
-/

namespace EHR

/-- Substring test on character lists: Python's `needle in hay`. -/
def containsSub (needle : List Char) : List Char → Bool
  | [] => needle.isEmpty
  | c :: t => List.isPrefixOf needle (c :: t) || containsSub needle t

/-- Case-sensitive substring test on strings (Python `needle in hay`). -/
def strContains (hay needle : String) : Bool :=
  containsSub needle.toList hay.toList

/-- Lowered character list of a string (Python `s.lower()`, ASCII letters). -/
def lowerStr (s : String) : List Char :=
  s.toList.map Char.toLower

/-- Substring test after lowering the haystack (the needles in the source are
already lower case). -/
def lowerContains (hay needle : String) : Bool :=
  containsSub needle.toList (lowerStr hay)

/-- SQLite `LIKE᾿%pat%᾿`-style containment: ASCII case-insensitive. -/
def likeContains (hay pat : String) : Bool :=
  containsSub (lowerStr pat) (lowerStr hay)

/-- ASCII whitespace for Python `str.strip()`. -/
def isWsChar (c : Char) : Bool :=
  c == ' ' || c == '\t' || c == '\n' || c == '\r'

/-- Python `s.strip()`. -/
def stripStr (s : String) : String :=
  ⟨((s.toList.dropWhile isWsChar).reverse.dropWhile isWsChar).reverse⟩

/-- Truthiness-guarded comparison `x and x >= c` on a nullable column. -/
def truthyGe (x : Option Int) (c : Int) : Bool :=
  match x with
  | none => false
  | some v => v != 0 && v ≥ c

/-- Truthiness-guarded comparison `x and x < c` on a nullable column. -/
def truthyLt (x : Option Int) (c : Int) : Bool :=
  match x with
  | none => false
  | some v => v != 0 && v < c

/-- Truthiness-guarded comparison `x and x > c` on a nullable column. -/
def truthyGt (x : Option Int) (c : Int) : Bool :=
  match x with
  | none => false
  | some v => v != 0 && v > c

/-- Comparison `x is not None and x >= c`. -/
def someGe (x : Option Int) (c : Int) : Bool :=
  match x with
  | none => false
  | some v => v ≥ c

/-- Comparison `x is not None and x <= c`. -/
def someLe (x : Option Int) (c : Int) : Bool :=
  match x with
  | none => false
  | some v => v ≤ c

/-- Comparison `x is not None and x < c`. -/
def someLt (x : Option Int) (c : Int) : Bool :=
  match x with
  | none => false
  | some v => v < c

/-- Comparison `x is not None and x > c`. -/
def someGt (x : Option Int) (c : Int) : Bool :=
  match x with
  | none => false
  | some v => v > c

/-- SQL `datetime(x) > datetime(base)` with a nullable left side. -/
def dueGtN (x : Option Nat) (base : Nat) : Bool :=
  match x with
  | none => false
  | some v => base < v

/-- Row of the `assessments` table (the columns the engine reads). -/
structure AssessmentRow where
  patient_id : Nat
  created_at : Nat
  author : String
  temperature : Option Int
  heart_rate : Option Int
  respiration_rate : Option Int
  systolic_bp : Option Int
  oxygen_sat : Option Int
  pain : Option Int
  mobility : Option Int
  confusion : Option Int
deriving DecidableEq, Repr

/-- Row of the `nurse_notes` table. -/
structure NoteRow where
  patient_id : Nat
  note : String
  created_at : Nat
  author : String
deriving DecidableEq, Repr

/-- Row of the `medications` table (the columns the engine reads/writes). -/
structure MedRow where
  id : Nat
  patient_id : Nat
  name : String
  dose : String
  route : String
  schedule : String
  next_due : Option Nat
  given : Bool
  not_given : Bool
  last_given_by : Option String
  last_given_at : Option Nat
deriving DecidableEq, Repr

/-- Row of the `patient_priorities` table. -/
structure PriorityRow where
  patient_id : Nat
  priority_rank : Nat
  problem : String
deriving DecidableEq, Repr

/-- Row of the `ai_tasks` table. -/
structure TaskRow where
  id : Nat
  patient_id : Nat
  description : String
  due_time : Option Nat
  completed : Bool
deriving DecidableEq, Repr

/-- Row of the `ai_alerts` table. -/
structure AlertRow where
  patient_id : Nat
  alert : String
  severity : String
  created_at : Nat
deriving DecidableEq, Repr

/-- Row of the `patients` table (the columns the engine reads/writes). -/
structure PatientRow where
  id : Nat
  bezugspflege_id : Option Nat
deriving DecidableEq, Repr

/-- Row of the `nurses` table. -/
structure NurseRow where
  id : Nat
  name : String
deriving DecidableEq, Repr

/-- Row of the `med_administrations` table (nullable nurse id). -/
structure MedAdminRow where
  patient_id : Nat
  nurse_id : Option Nat
deriving DecidableEq, Repr

/-- The record store. -/
structure DB where
  assessments : List AssessmentRow
  nurse_notes : List NoteRow
  medications : List MedRow
  patient_priorities : List PriorityRow
  ai_tasks : List TaskRow
  ai_alerts : List AlertRow
  patients : List PatientRow
  nurses : List NurseRow
  med_administrations : List MedAdminRow
  next_task_id : Nat
  next_med_id : Nat
deriving DecidableEq, Repr

/-- Latest row by a timestamp key (`ORDER BY datetime(created_at) DESC LIMIT 1`). -/
def latestBy {α : Type} (key : α → Nat) (l : List α) : Option α :=
  l.foldl
    (fun best r =>
      match best with
      | none => some r
      | some b => if key b < key r then some r else some b)
    none

/-- Latest assessment for a patient. -/
def latestAssessment (db : DB) (pid : Nat) : Option AssessmentRow :=
  latestBy (·.created_at) (db.assessments.filter (·.patient_id == pid))

/-- Latest nurse note for a patient. -/
def latestNote (db : DB) (pid : Nat) : Option NoteRow :=
  latestBy (·.created_at) (db.nurse_notes.filter (·.patient_id == pid))

/-- Stable insertion step: place `x` after every element of equal or smaller
key (this is the unique stable ascending placement). -/
def insertByKey {α : Type} (key : α → Nat) (x : α) : List α → List α
  | [] => [x]
  | y :: ys => if key y ≤ key x then y :: insertByKey key x ys else x :: y :: ys

/-- Stable ascending sort by a numeric key (Python `list.sort(key=...)`). -/
def stableSortByKey {α : Type} (key : α → Nat) (l : List α) : List α :=
  l.foldl (fun acc x => insertByKey key x acc) []

/-- Appends an element unless already present (the source's
`if p not in problems: problems.append(p)` pattern). -/
def appendIfNew {α : Type} [BEq α] (l : List α) (x : α) : List α :=
  if l.contains x then l else l ++ [x]

/-- Folds `appendIfNew` over a candidate list. -/
def addAll {α : Type} [BEq α] (l : List α) (cs : List α) : List α :=
  cs.foldl appendIfNew l

/-- Order-preserving deduplication (`list(dict.fromkeys(...))`). -/
def dedupFirst {α : Type} [BEq α] (l : List α) : List α :=
  addAll [] l

/-- Source `get_med_interval_hours`: keyword table over the schedule text,
8h fallback. -/
def get_med_interval_hours (schedule : String) : Nat :=
  if schedule == "" then 8
  else if lowerContains schedule "alle 1h" || lowerContains schedule "alle 1 h" then 1
  else if lowerContains schedule "alle 2h" || lowerContains schedule "alle 2 h" then 2
  else if lowerContains schedule "alle 4h" || lowerContains schedule "alle 4 h" then 4
  else if lowerContains schedule "1x täglich" || lowerContains schedule "1 x täglich" then 24
  else if lowerContains schedule "2x täglich" || lowerContains schedule "2 x täglich" then 6
  else if lowerContains schedule "3x täglich" || lowerContains schedule "3 x täglich" then 8
  else if lowerContains schedule "morgens" || lowerContains schedule "abends"
      || lowerContains schedule "nachts" then 24
  else 8

/-- Source `get_default_interval_hours`: keyword table over a task
description, 4h fallback. -/
def get_default_interval_hours (description : String) : Nat :=
  if lowerContains description "täglich" then 24
  else if lowerContains description "alle 2h" || lowerContains description "alle 2 h" then 2
  else if lowerContains description "alle 4h" || lowerContains description "alle 4 h" then 4
  else if lowerContains description "alle 1h" || lowerContains description "alle 1 h" then 1
  else 4

/-- Source `SPOKEN_PRIORITY_KEYWORDS`, in dict insertion order. -/
def SPOKEN_PRIORITY_KEYWORDS : List (String × String) :=
  [("gestürzt", "Sturz- und Dekubitusrisiko"),
   ("gefallen", "Sturz- und Dekubitusrisiko"),
   ("fast gefallen", "Sturz- und Dekubitusrisiko"),
   ("unsicher", "Sturz- und Dekubitusrisiko"),
   ("dekubitus", "Sturz- und Dekubitusrisiko"),
   ("atemnot", "Atemnot / eingeschränkter Gasaustausch"),
   ("kurzatmig", "Atemnot / eingeschränkter Gasaustausch"),
   ("schmerz", "Starke Schmerzen"),
   ("schmerzen", "Starke Schmerzen"),
   ("verwirrt", "Akute Verwirrtheit / Delirrisiko"),
   ("delir", "Akute Verwirrtheit / Delirrisiko")]

/-- Source `extract_problems_from_nurse_notes`: keyword scan over the latest
note, deduplicated. -/
def extract_problems_from_nurse_notes (db : DB) (pid : Nat) : List String :=
  match latestNote db pid with
  | none => []
  | some row =>
    if row.note == "" then []
    else
      dedupFirst
        ((SPOKEN_PRIORITY_KEYWORDS.filter
            (fun kw => containsSub kw.1.toList (lowerStr row.note))).map (·.2))

/-- Source `PRIORITY_WEIGHTS` with the `.get(p, 50)` default. -/
def priorityWeight (p : String) : Nat :=
  if p == "Hypoxie-Risiko / O₂-Überwachung" then 1
  else if p == "Atemnot / eingeschränkter Gasaustausch" then 1
  else if p == "Hypotonie – Kreislauf instabil" then 2
  else if p == "Tachykardie / Kreislaufbelastung" then 2
  else if p == "Akute Verwirrtheit / Delirrisiko" then 3
  else if p == "Infektionsrisiko" then 4
  else if p == "Sturz- und Dekubitusrisiko" then 4
  else if p == "Schmerzen" then 5
  else if p == "Allgemeines Monitoring / Stabilisierung" then 99
  else 50

/-- The fallback problem label. -/
def fallbackProblem : String := "Allgemeines Monitoring / Stabilisierung"

/-- Problems implied by the latest flowsheet vitals/scales, in source order
(each guarded by `is not None` plus the threshold). -/
def vitalsProblems (a : AssessmentRow) : List String :=
  (if someGe a.pain 7 then ["Schmerzen"] else [])
  ++ (if someLe a.mobility 3 then ["Sturz- und Dekubitusrisiko"] else [])
  ++ (if someGe a.confusion 6 then ["Akute Verwirrtheit / Delirrisiko"] else [])
  ++ (if someLt a.oxygen_sat 92 then ["Hypoxie-Risiko / O₂-Überwachung"] else [])
  ++ (if someGt a.heart_rate 110 then ["Tachykardie / Kreislaufbelastung"] else [])
  ++ (if someLt a.systolic_bp 90 then ["Hypotonie – Kreislauf instabil"] else [])
  ++ (if someGt a.temperature 385 then ["Infektionsrisiko"] else [])
  ++ (if someGt a.respiration_rate 20 then ["Atemnot / eingeschränkter Gasaustausch"] else [])

/-- The current persisted problem list of a patient, read back in rank order. -/
def storedProblems (db : DB) (pid : Nat) : List String :=
  (stableSortByKey (·.priority_rank)
      (db.patient_priorities.filter (·.patient_id == pid))).map (·.problem)

/-- The accumulated problem list before fallback/ranking: persisted problems,
then note-derived problems, then vitals-derived problems, each added only if
not already present. -/
def preProblems (db : DB) (pid : Nat) : List String :=
  let withSpoken :=
    addAll (storedProblems db pid) (extract_problems_from_nurse_notes db pid)
  match latestAssessment db pid with
  | none => withSpoken
  | some a => addAll withSpoken (vitalsProblems a)

/-- The ranked problem list a run persists: fallback if nothing was found,
dedup, stable sort by clinical weight, keep the first 3. -/
def computeProblems (db : DB) (pid : Nat) : List String :=
  let l := preProblems db pid
  let l := if l.isEmpty then [fallbackProblem] else l
  (stableSortByKey priorityWeight (dedupFirst l)).take 3

/-- Priority rows for the computed problems, ranked from `rank` upward. -/
def rankRows (pid : Nat) (rank : Nat) : List String → List PriorityRow
  | [] => []
  | p :: ps => ⟨pid, rank, p⟩ :: rankRows pid (rank + 1) ps

/-- The qSOFA-style composite score, with the source's truthiness guards. -/
def qsofaScore (a : AssessmentRow) : Nat :=
  (if truthyGe a.respiration_rate 22 then 1 else 0)
  + (if truthyLt a.systolic_bp 100 then 1 else 0)
  + (if truthyGe a.confusion 5 then 1 else 0)

/-- Whether the patient's medication list names bisoprolol (lower-cased
exact list membership, as in the source). -/
def hasBisoprolol (db : DB) (pid : Nat) : Bool :=
  ((db.medications.filter (·.patient_id == pid)).map
      (fun m => lowerStr m.name)).contains ("bisoprolol".toList)

/-- The alert rule table of `generate_ai_alerts`, in evaluation order:
each entry is ((message, severity), condition). -/
def alertRules (db : DB) (pid : Nat) (a : AssessmentRow) :
    List ((String × String) × Bool) :=
  [(("Fieber: bitte Infekt abklären", "warning"), truthyGe a.temperature 385),
   (("Schwere Hypoxie! O₂-Gabe prüfen", "critical"), truthyLt a.oxygen_sat 90),
   (("Hypotonie – Gefahr einer Schocksituation", "critical"), truthyLt a.systolic_bp 90),
   (("Tachykardie: mögliche Schmerzen, Fieber oder Hypovolämie", "warning"),
      truthyGt a.heart_rate 120),
   (("⚠️ Sepsisverdacht! Arzt sofort informieren.", "critical"),
      decide (2 ≤ qsofaScore a)),
   (("Bisoprolol bei niedrigen RR mit Vorsicht verabreichen!", "warning"),
      hasBisoprolol db pid && truthyLt a.systolic_bp 95)]

/-- The (message, severity) pairs `generate_ai_alerts` computes, in order:
the rules whose condition fired. -/
def computedAlerts (db : DB) (pid : Nat) (a : AssessmentRow) : List (String × String) :=
  ((alertRules db pid a).filter (·.2)).map (·.1)

/-- Source `generate_ai_alerts`: no-op without an assessment, otherwise a
full delete-then-insert replacement of the patient's alert rows. -/
def generate_ai_alerts (db : DB) (now pid : Nat) : DB :=
  match latestAssessment db pid with
  | none => db
  | some a =>
    { db with
      ai_alerts :=
        db.ai_alerts.filter (fun r => !(r.patient_id == pid))
          ++ (computedAlerts db pid a).map (fun p => ⟨pid, p.1, p.2, now⟩) }

/-- Task catalog per problem (`generate_priorities_and_tasks`, task block). -/
def taskDescriptionsFor (prob : String) : List String :=
  if strContains prob "Hypoxie" || strContains prob "Atemnot" then
    ["SpO₂ & AF alle 2h dokumentieren", "Oberkörperhochlagerung"]
  else if strContains prob "Hypotonie" || strContains prob "Tachykardie" then
    ["RR & Puls alle 2h kontrollieren"]
  else if strContains prob "Sturz" then
    ["Lagerung alle 2h dokumentieren", "Sturzrisiko einschätzen"]
  else if strContains prob "Verwirrtheit" then
    ["Orientierungshilfen bereitstellen"]
  else if strContains prob "Schmerzen" then
    ["Schmerzskala alle 4h erheben"]
  else
    ["Vitalzeichen nach Standard"]

/-- Delete-before-insert regeneration of one recurring task: removes every
open task with the same (patient, description) and inserts a fresh open one
due `now + interval`. -/
def regenTask (db : DB) (pid : Nat) (desc : String) (now : Nat) : DB :=
  let ih := get_default_interval_hours desc
  { db with
    ai_tasks :=
      db.ai_tasks.filter
          (fun t => !(t.patient_id == pid && !t.completed && t.description == desc))
        ++ [⟨db.next_task_id, pid, desc, some (now + 60 * ih), false⟩],
    next_task_id := db.next_task_id + 1 }

/-- The flat description list the task generator iterates over. -/
def taskDescList (probs : List String) : List String :=
  probs.flatMap taskDescriptionsFor

/-- Full delete+reinsert of the patient's ranked problem rows. -/
def replacePriorities (db : DB) (pid : Nat) (probs : List String) : DB :=
  { db with
    patient_priorities :=
      db.patient_priorities.filter (fun r => !(r.patient_id == pid))
        ++ rankRows pid 1 probs }

/-- The task-regeneration loop over the flat description list. -/
def regenAllTasks (db : DB) (pid now : Nat) (ds : List String) : DB :=
  ds.foldl (fun d desc => regenTask d pid desc now) db

/-- Source `generate_priorities_and_tasks`: recompute and persist the ranked
problems (full delete+reinsert), regenerate the per-problem tasks, then
trigger `generate_ai_alerts`. -/
def generate_priorities_and_tasks (db : DB) (now pid : Nat) : DB :=
  generate_ai_alerts
    (regenAllTasks (replacePriorities db pid (computeProblems db pid)) pid now
      (taskDescList (computeProblems db pid)))
    now pid

/-- Source `complete_and_schedule_next`: if an open task with the exact
description exists, complete all its open duplicates and insert exactly one
next occurrence. -/
def complete_and_schedule_next (db : DB) (pid : Nat) (desc_exact : String)
    (interval_hours : Nat) (now : Nat) : DB :=
  if (db.ai_tasks.filter
        (fun t => t.patient_id == pid && t.description == desc_exact && !t.completed)).isEmpty
  then db
  else
    { db with
      ai_tasks :=
        db.ai_tasks.map
            (fun t =>
              if t.patient_id == pid && t.description == desc_exact && !t.completed then
                { t with completed := true }
              else t)
          ++ [⟨db.next_task_id, pid, desc_exact, some (now + 60 * interval_hours), false⟩],
      next_task_id := db.next_task_id + 1 }

/-- The vitals keyword filter of the flowsheet auto-completion
(`description LIKE ...` disjunction). -/
def vitalsTaskFilter (desc : String) : Bool :=
  likeContains desc "Vitalzeichen" || likeContains desc "RR" || likeContains desc "SpO2"
    || likeContains desc "Puls" || likeContains desc "AF"

/-- Flowsheet vitals branch: mark every open task matching the vitals keyword
filter completed (no next occurrence is scheduled). -/
def flowsheetVitalsComplete (db : DB) (pid : Nat) : DB :=
  { db with
    ai_tasks :=
      db.ai_tasks.map
        (fun t =>
          if t.patient_id == pid && !t.completed && vitalsTaskFilter t.description then
            { t with completed := true }
          else t) }

/-- The task side-effect block of the flowsheet POST handler: vitals charting
completes matching open tasks in place; pain/weight charting go through
`complete_and_schedule_next` with a 24h interval. -/
def flowsheetTaskEffects (db : DB) (pid : Nat)
    (charted_vitals charted_pain charted_weight : Bool) (now : Nat) : DB :=
  let db1 := if charted_vitals then flowsheetVitalsComplete db pid else db
  let db2 :=
    if charted_pain then
      complete_and_schedule_next db1 pid "Schmerzen täglich nachfragen" 24 now
    else db1
  if charted_weight then
    complete_and_schedule_next db2 pid "Gewicht täglich messen" 24 now
  else db2

/-- Toggle of an AI task (`toggle_task`, task_type=ai): completing spawns the
next occurrence at recorded-due + interval; un-completing reopens the row and
deletes open forward-dated copies of the same (patient, description). -/
def toggle_task_ai (db : DB) (now task_id : Nat) : DB :=
  match db.ai_tasks.find? (·.id == task_id) with
  | none => db
  | some task =>
    let base_due := task.due_time.getD now
    if !task.completed then
      let ih := get_default_interval_hours task.description
      { db with
        ai_tasks :=
          db.ai_tasks.map
              (fun t => if t.id == task_id then { t with completed := true } else t)
            ++ [⟨db.next_task_id, task.patient_id, task.description,
                  some (base_due + 60 * ih), false⟩],
        next_task_id := db.next_task_id + 1 }
    else
      let cmp := task.due_time.getD now
      { db with
        ai_tasks :=
          (db.ai_tasks.map
              (fun t => if t.id == task_id then { t with completed := false } else t)).filter
            (fun t =>
              !(t.patient_id == task.patient_id && t.description == task.description
                  && !t.completed && dueGtN t.due_time cmp)) }

/-- The two medication actions of `toggle_task` (task_type=med). -/
inductive MedAction
  | given
  | not_given
deriving DecidableEq, Repr

/-- A freshly inserted next-dose row (only the engine's INSERT columns are
set; flags default to 0 and the audit columns to NULL). -/
def newOpenDose (db : DB) (med : MedRow) (nd : Nat) : MedRow :=
  ⟨db.next_med_id, med.patient_id, med.name, med.dose, med.route, med.schedule,
    some nd, false, false, none, none⟩

/-- Toggle of a medication dose (`toggle_task`, task_type=med): resolving an
open row records actor/time and spawns the next dose; repeating the same
action on a resolved row undoes it and deletes forward-dated open copies of
the same (patient, name, schedule). -/
def toggle_task_med (db : DB) (now : Nat) (current_nurse : Option String)
    (task_id : Nat) (action : MedAction) : DB :=
  match db.medications.find? (·.id == task_id) with
  | none => db
  | some med =>
    let base_due := med.next_due.getD now
    let ih := get_med_interval_hours med.schedule
    let cmp := med.next_due.getD now
    match action with
    | .given =>
      if !med.given then
        { db with
          medications :=
            db.medications.map
                (fun m =>
                  if m.id == task_id then
                    { m with given := true, not_given := false,
                             last_given_by := current_nurse, last_given_at := some now }
                  else m)
              ++ [newOpenDose db med (base_due + 60 * ih)],
          next_med_id := db.next_med_id + 1 }
      else
        { db with
          medications :=
            (db.medications.map
                (fun m =>
                  if m.id == task_id then
                    { m with given := false, not_given := false,
                             last_given_by := none, last_given_at := none }
                  else m)).filter
              (fun m =>
                !(m.patient_id == med.patient_id && m.name == med.name
                    && m.schedule == med.schedule && !m.given && !m.not_given
                    && dueGtN m.next_due cmp)) }
    | .not_given =>
      if !med.not_given then
        { db with
          medications :=
            db.medications.map
                (fun m =>
                  if m.id == task_id then
                    { m with not_given := true, given := false,
                             last_given_by := current_nurse, last_given_at := some now }
                  else m)
              ++ [newOpenDose db med (base_due + 60 * ih)],
          next_med_id := db.next_med_id + 1 }
      else
        { db with
          medications :=
            (db.medications.map
                (fun m =>
                  if m.id == task_id then
                    { m with not_given := false, given := false,
                             last_given_by := none, last_given_at := none }
                  else m)).filter
              (fun m =>
                !(m.patient_id == med.patient_id && m.name == med.name
                    && m.schedule == med.schedule && !m.given && !m.not_given
                    && dueGtN m.next_due cmp)) }

/-- Name-to-id map over the nurse roster (a Python dict comprehension: for
duplicate names the later row wins). -/
def nameToId (nurses : List NurseRow) (nm : String) : Option Nat :=
  (nurses.reverse.find? (fun n => n.name == nm)).map (·.id)

/-- One step of assoc-list counting (`GROUP BY`, first-seen group order). -/
def bumpCount {α : Type} [BEq α] (acc : List (α × Nat)) (a : α) : List (α × Nat) :=
  if acc.any (·.1 == a) then
    acc.map (fun e => if e.1 == a then (e.1, e.2 + 1) else e)
  else acc ++ [(a, 1)]

/-- Grouped counts of a list (`SELECT key, COUNT(*) ... GROUP BY key`). -/
def groupCounts {α : Type} [BEq α] (l : List α) : List (α × Nat) :=
  l.foldl bumpCount []

/-- Source `add_score`: skipped entirely for a falsy nurse id (None or 0). -/
def addScore (s : List (Nat × Nat)) (nid : Option Nat) (pts : Nat) : List (Nat × Nat) :=
  match nid with
  | none => s
  | some n =>
    if n == 0 then s
    else if s.any (·.1 == n) then
      s.map (fun e => if e.1 == n then (e.1, e.2 + pts) else e)
    else s ++ [(n, pts)]

/-- One author-grouped scoring pass: k points per grouped row, authors
stripped and matched exactly against the roster names. -/
def scoreFold (nurses : List NurseRow) (k : Nat) (authors : List String)
    (s : List (Nat × Nat)) : List (Nat × Nat) :=
  (groupCounts authors).foldl
    (fun s e => addScore s (nameToId nurses (stripStr e.1)) (k * e.2)) s

/-- The med-administration scoring pass (rows already carry a nurse id). -/
def medFold (admins : List (Option Nat)) (s : List (Nat × Nat)) : List (Nat × Nat) :=
  (groupCounts admins).foldl (fun s e => addScore s e.1 (1 * e.2)) s

/-- The interaction score table of `update_bezugspflege_by_interactions`:
2 points per authored nurse note, 1 per authored assessment, 1 per
administered dose; note/assessment authors are stripped and matched exactly
against the roster names. -/
def interactionScores (db : DB) (pid : Nat) : List (Nat × Nat) :=
  medFold ((db.med_administrations.filter (·.patient_id == pid)).map (·.nurse_id))
    (scoreFold db.nurses 1 ((db.assessments.filter (·.patient_id == pid)).map (·.author))
      (scoreFold db.nurses 2 ((db.nurse_notes.filter (·.patient_id == pid)).map (·.author)) []))

/-- The maximum interaction score (`max(scores.values())`). -/
def bestScore (scores : List (Nat × Nat)) : Nat :=
  (scores.map (·.2)).foldl max 0

/-- The nurse ids tied at the maximum score, in score-table order. -/
def winnersOf (scores : List (Nat × Nat)) : List Nat :=
  (scores.filter (·.2 == bestScore scores)).map (·.1)

/-- The tie-break of the source: keep the current assignee when among the
winners, otherwise the first winner. -/
def chooseNurse (scores : List (Nat × Nat)) (current : Option Nat) : Nat :=
  match current with
  | some c => if (winnersOf scores).contains c then c else (winnersOf scores).headD 0
  | none => (winnersOf scores).headD 0

/-- Source `update_bezugspflege_by_interactions`: assign the highest-scored
nurse, keeping the current assignee on ties; no-op when no activity scored.
(The source would raise on a nonexistent patient; the claims below are all
stated for an existing patient row.) -/
def update_bezugspflege_by_interactions (db : DB) (pid : Nat) : DB :=
  let scores := interactionScores db pid
  if scores.isEmpty then db
  else
    match db.patients.find? (·.id == pid) with
    | none => db
    | some p =>
      let chosen := chooseNurse scores p.bezugspflege_id
      { db with
        patients :=
          db.patients.map
            (fun q => if q.id == pid then { q with bezugspflege_id := some chosen } else q) }

/-- Observable projection: the (rank, problem) pairs persisted for a patient. -/
def prioritiesOf (db : DB) (pid : Nat) : List (Nat × String) :=
  (db.patient_priorities.filter (·.patient_id == pid)).map
    (fun r => (r.priority_rank, r.problem))

/-- Observable projection: the (message, severity) pairs of a patient's
alert rows. -/
def alertPairsOf (db : DB) (pid : Nat) : List (String × String) :=
  (db.ai_alerts.filter (·.patient_id == pid)).map (fun r => (r.alert, r.severity))

/-- Observable projection: the (description, due time) pairs of a patient's
open tasks. -/
def openPairsOf (db : DB) (pid : Nat) : List (String × Option Nat) :=
  (db.ai_tasks.filter (fun t => t.patient_id == pid && !t.completed)).map
    (fun t => (t.description, t.due_time))

end EHR

namespace EHR

section SortLemmas

variable {α : Type} (key : α → Nat)

theorem mem_insertByKey {x a : α} {l : List α} :
    a ∈ insertByKey key x l ↔ a = x ∨ a ∈ l := by
  induction l with
  | nil => simp [insertByKey]
  | cons y ys ih =>
    simp only [insertByKey]
    split
    · simp only [List.mem_cons, ih]
      tauto
    · exact List.mem_cons

theorem pairwise_insertByKey {x : α} {l : List α}
    (h : l.Pairwise (fun a b => key a ≤ key b)) :
    (insertByKey key x l).Pairwise (fun a b => key a ≤ key b) := by
  induction l with
  | nil => simp [insertByKey]
  | cons y ys ih =>
    rcases List.pairwise_cons.mp h with ⟨hy, hys⟩
    simp only [insertByKey]
    split
    · next hle =>
      refine List.pairwise_cons.mpr ⟨?_, ih hys⟩
      intro b hb
      rcases (mem_insertByKey key).mp hb with rfl | hb
      · exact hle
      · exact hy b hb
    · next hle =>
      refine List.pairwise_cons.mpr ⟨?_, h⟩
      intro b hb
      rcases List.mem_cons.mp hb with rfl | hb
      · omega
      · exact le_trans (by omega) (hy b hb)

theorem insertByKey_perm (x : α) (l : List α) :
    List.Perm (insertByKey key x l) (x :: l) := by
  induction l with
  | nil => simp [insertByKey]
  | cons y ys ih =>
    simp only [insertByKey]
    split
    · exact (ih.cons y).trans (List.Perm.swap x y ys)
    · exact List.Perm.refl _

theorem foldl_insertByKey_perm (l : List α) :
    ∀ acc : List α, List.Perm (l.foldl (fun a x => insertByKey key x a) acc) (acc ++ l) := by
  induction l with
  | nil => intro acc; simp
  | cons x xs ih =>
    intro acc
    have h1 : (x :: xs).foldl (fun a x => insertByKey key x a) acc
        = xs.foldl (fun a x => insertByKey key x a) (insertByKey key x acc) := rfl
    rw [h1]
    have h2 := ih (insertByKey key x acc)
    have h3 : List.Perm (insertByKey key x acc ++ xs) ((x :: acc) ++ xs) :=
      (insertByKey_perm key x acc).append_right xs
    exact (h2.trans h3).trans List.perm_middle.symm

theorem stableSortByKey_perm (l : List α) : List.Perm (stableSortByKey key l) l := by
  simpa using foldl_insertByKey_perm key l []

theorem mem_stableSortByKey {a : α} {l : List α} :
    a ∈ stableSortByKey key l ↔ a ∈ l :=
  (stableSortByKey_perm key l).mem_iff

theorem pairwise_stableSortByKey (l : List α) :
    (stableSortByKey key l).Pairwise (fun a b => key a ≤ key b) := by
  have aux : ∀ (l acc : List α), acc.Pairwise (fun a b => key a ≤ key b) →
      (l.foldl (fun a x => insertByKey key x a) acc).Pairwise (fun a b => key a ≤ key b) := by
    intro l
    induction l with
    | nil => intro acc h; exact h
    | cons x xs ih => intro acc h; exact ih _ (pairwise_insertByKey key h)
  exact aux l [] (by simp)

theorem insertByKey_append_of_le {x : α} {pre M : List α}
    (h : ∀ p ∈ pre, key p ≤ key x) :
    insertByKey key x (pre ++ M) = pre ++ insertByKey key x M := by
  induction pre with
  | nil => rfl
  | cons p ps ih =>
    have hp : key p ≤ key x := h p (List.mem_cons_self p ps)
    have hrest := ih (fun q hq => h q (List.mem_cons_of_mem p hq))
    simp only [List.cons_append, insertByKey, if_pos hp, List.append_eq, hrest]

theorem foldl_insertByKey_of_sorted :
    ∀ (l acc : List α), (acc ++ l).Pairwise (fun a b => key a ≤ key b) →
      l.foldl (fun a x => insertByKey key x a) acc = acc ++ l := by
  intro l
  induction l with
  | nil => intro acc _; simp
  | cons x xs ih =>
    intro acc h
    have hacc : ∀ p ∈ acc, key p ≤ key x := by
      rcases List.pairwise_append.mp h with ⟨_, _, hx⟩
      exact fun p hp => hx p hp x (List.mem_cons_self x xs)
    have step : insertByKey key x acc = acc ++ [x] := by
      have := insertByKey_append_of_le key (M := []) hacc
      simpa using this
    calc (x :: xs).foldl (fun a x => insertByKey key x a) acc
        = xs.foldl (fun a x => insertByKey key x a) (insertByKey key x acc) := rfl
      _ = xs.foldl (fun a x => insertByKey key x a) (acc ++ [x]) := by rw [step]
      _ = (acc ++ [x]) ++ xs := by
          refine ih _ ?_
          have : acc ++ x :: xs = (acc ++ [x]) ++ xs := by simp
          rw [← this]; exact h
      _ = acc ++ x :: xs := by simp

theorem stableSortByKey_of_sorted {l : List α}
    (h : l.Pairwise (fun a b => key a ≤ key b)) :
    stableSortByKey key l = l := by
  have := foldl_insertByKey_of_sorted key l [] (by simpa using h)
  simpa [stableSortByKey] using this

theorem foldl_insertByKey_append_of_le {pre : List α} :
    ∀ (D M : List α), (∀ p ∈ pre, ∀ d ∈ D, key p ≤ key d) →
      D.foldl (fun a x => insertByKey key x a) (pre ++ M)
        = pre ++ D.foldl (fun a x => insertByKey key x a) M := by
  intro D
  induction D with
  | nil => intro M _; simp
  | cons d ds ih =>
    intro M h
    have hd : ∀ p ∈ pre, key p ≤ key d :=
      fun p hp => h p hp d (List.mem_cons_self d ds)
    calc (d :: ds).foldl (fun a x => insertByKey key x a) (pre ++ M)
        = ds.foldl (fun a x => insertByKey key x a) (insertByKey key d (pre ++ M)) := rfl
      _ = ds.foldl (fun a x => insertByKey key x a) (pre ++ insertByKey key d M) := by
          rw [insertByKey_append_of_le key hd]
      _ = pre ++ ds.foldl (fun a x => insertByKey key x a) (insertByKey key d M) :=
          ih _ (fun p hp e he => h p hp e (List.mem_cons_of_mem d he))

theorem stableSortByKey_append_of_le {pre D : List α}
    (hpre : pre.Pairwise (fun a b => key a ≤ key b))
    (h : ∀ p ∈ pre, ∀ d ∈ D, key p ≤ key d) :
    stableSortByKey key (pre ++ D) = pre ++ stableSortByKey key D := by
  unfold stableSortByKey
  rw [List.foldl_append]
  rw [foldl_insertByKey_of_sorted key pre [] (by simpa using hpre)]
  simpa using foldl_insertByKey_append_of_le key D [] h

end SortLemmas

section AddAllLemmas

variable {α : Type} [BEq α] [LawfulBEq α]

theorem addAll_nil (l : List α) : addAll l [] = l := rfl

theorem addAll_append_decomp (cs : List α) :
    ∀ l : List α, ∃ D, addAll l cs = l ++ D ∧ ∀ d ∈ D, d ∈ cs ∧ d ∉ l := by
  induction cs with
  | nil => intro l; exact ⟨[], by simp [addAll], by simp⟩
  | cons c cs ih =>
    intro l
    show ∃ D, addAll (appendIfNew l c) cs = l ++ D ∧ _
    by_cases hc : c ∈ l
    · have : appendIfNew l c = l := by
        simp [appendIfNew, List.elem_eq_mem, hc]
      rw [this]
      rcases ih l with ⟨D, hD, hmem⟩
      exact ⟨D, hD, fun d hd =>
        ⟨List.mem_cons_of_mem c (hmem d hd).1, (hmem d hd).2⟩⟩
    · have : appendIfNew l c = l ++ [c] := by
        simp [appendIfNew, List.elem_eq_mem, hc]
      rw [this]
      rcases ih (l ++ [c]) with ⟨D, hD, hmem⟩
      refine ⟨c :: D, ?_, ?_⟩
      · rw [hD]; simp
      · intro d hd
        rcases List.mem_cons.mp hd with rfl | hd
        · exact ⟨List.mem_cons_self d cs, hc⟩
        · refine ⟨List.mem_cons_of_mem c (hmem d hd).1, fun hdl => (hmem d hd).2 ?_⟩
          exact List.mem_append.mpr (Or.inl hdl)

theorem mem_addAll_of_mem_left {l cs : List α} {a : α} (h : a ∈ l) : a ∈ addAll l cs := by
  rcases addAll_append_decomp cs l with ⟨D, hD, _⟩
  rw [hD]; exact List.mem_append.mpr (Or.inl h)

theorem mem_addAll_of_mem_right {cs : List α} {a : α} (h : a ∈ cs) :
    ∀ l : List α, a ∈ addAll l cs := by
  induction cs with
  | nil => cases h
  | cons c cs ih =>
    intro l
    rcases List.mem_cons.mp h with rfl | h
    · show a ∈ addAll (appendIfNew l a) cs
      refine mem_addAll_of_mem_left ?_
      by_cases hc : a ∈ l
      · simpa [appendIfNew, List.elem_eq_mem, hc] using hc
      · simp [appendIfNew, List.elem_eq_mem, hc]
    · exact ih h _

theorem mem_addAll {l cs : List α} {a : α} (h : a ∈ addAll l cs) : a ∈ l ∨ a ∈ cs := by
  rcases addAll_append_decomp cs l with ⟨D, hD, hmem⟩
  rw [hD] at h
  rcases List.mem_append.mp h with h | h
  · exact Or.inl h
  · exact Or.inr (hmem a h).1

theorem nodup_addAll {cs : List α} :
    ∀ {l : List α}, l.Nodup → (addAll l cs).Nodup := by
  induction cs with
  | nil => intro l h; exact h
  | cons c cs ih =>
    intro l h
    show (addAll (appendIfNew l c) cs).Nodup
    refine ih ?_
    by_cases hc : c ∈ l
    · simpa [appendIfNew, List.elem_eq_mem, hc] using h
    · have hstep : appendIfNew l c = l ++ [c] := by
        simp [appendIfNew, List.elem_eq_mem, hc]
      rw [hstep]
      simp [List.nodup_append, h, hc]

theorem addAll_eq_nil {l cs : List α} (h : addAll l cs = []) : l = [] ∧ cs = [] := by
  rcases addAll_append_decomp cs l with ⟨D, hD, _⟩
  rw [hD] at h
  rcases List.append_eq_nil.mp h with ⟨hl, hD0⟩
  refine ⟨hl, List.eq_nil_iff_forall_not_mem.mpr fun a ha => ?_⟩
  have := mem_addAll_of_mem_right ha l
  rw [hD, hl, hD0] at this
  cases this

theorem mem_dedupFirst {l : List α} {a : α} : a ∈ dedupFirst l ↔ a ∈ l := by
  constructor
  · intro h
    rcases mem_addAll h with h | h
    · cases h
    · exact h
  · intro h
    exact mem_addAll_of_mem_right h []

theorem nodup_dedupFirst (l : List α) : (dedupFirst l).Nodup :=
  nodup_addAll List.nodup_nil

theorem dedupFirst_eq_nil {l : List α} (h : dedupFirst l = []) : l = [] :=
  (addAll_eq_nil h).2

theorem addAll_of_nodup_disjoint :
    ∀ (cs acc : List α), (acc ++ cs).Nodup → addAll acc cs = acc ++ cs := by
  intro cs
  induction cs with
  | nil => intro acc _; simp [addAll]
  | cons c cs ih =>
    intro acc h
    have hc : c ∉ acc := by
      intro hmem
      exact (List.nodup_append.mp h).2.2 hmem (List.mem_cons_self c cs)
    show addAll (appendIfNew acc c) cs = acc ++ c :: cs
    have hstep : appendIfNew acc c = acc ++ [c] := by
      simp [appendIfNew, List.elem_eq_mem, hc]
    rw [hstep, ih (acc ++ [c]) (by rwa [← List.append_cons]), ← List.append_cons]

theorem dedupFirst_of_nodup {l : List α} (h : l.Nodup) : dedupFirst l = l := by
  simpa using addAll_of_nodup_disjoint l [] (by simpa using h)

end AddAllLemmas

end EHR

namespace EHR

/-- The fallback step of the problem pipeline (`if not problems: ...`). -/
def withFallback (l : List String) : List String :=
  if l.isEmpty then [fallbackProblem] else l

/-- Dedup, stable sort by clinical weight, keep the first 3. -/
def rankedTop3 (l : List String) : List String :=
  (stableSortByKey priorityWeight (dedupFirst l)).take 3

theorem computeProblems_eq (db : DB) (pid : Nat) :
    computeProblems db pid = rankedTop3 (withFallback (preProblems db pid)) := rfl

theorem rankedTop3_nodup (l : List String) : (rankedTop3 l).Nodup :=
  (List.take_sublist 3 _).nodup
    ((stableSortByKey_perm priorityWeight (dedupFirst l)).symm.nodup (nodup_dedupFirst l))

theorem rankedTop3_sorted (l : List String) :
    (rankedTop3 l).Pairwise (fun a b => priorityWeight a ≤ priorityWeight b) :=
  List.Pairwise.sublist (List.take_sublist 3 _) (pairwise_stableSortByKey priorityWeight _)

theorem rankedTop3_length_le (l : List String) : (rankedTop3 l).length ≤ 3 := by
  simp only [rankedTop3, List.length_take]
  omega

theorem rankedTop3_ne_nil {l : List String} (h : l ≠ []) : rankedTop3 l ≠ [] := by
  have hd : dedupFirst l ≠ [] := fun hc => h (dedupFirst_eq_nil hc)
  have hlen : 0 < (stableSortByKey priorityWeight (dedupFirst l)).length := by
    rw [(stableSortByKey_perm priorityWeight (dedupFirst l)).length_eq]
    exact List.length_pos.mpr hd
  have : 0 < (rankedTop3 l).length := by
    simp only [rankedTop3, List.length_take]
    omega
  exact List.length_pos.mp this

theorem mem_of_mem_rankedTop3 {l : List String} {a : String} (h : a ∈ rankedTop3 l) :
    a ∈ l :=
  mem_dedupFirst.mp
    ((mem_stableSortByKey priorityWeight).mp (List.mem_of_mem_take h))

/-- Recomputing from the persisted result (with the same note-derived and
vitals-derived candidates) reproduces the same ranked top-3 list: the core of
the idempotence argument. -/
theorem rankedTop3_stable (P0 sp vit : List String) :
    rankedTop3 (withFallback
      (addAll (addAll (rankedTop3 (withFallback (addAll (addAll P0 sp) vit))) sp) vit))
    = rankedTop3 (withFallback (addAll (addAll P0 sp) vit)) := by
  set L0 := addAll (addAll P0 sp) vit with hL0
  set probs := rankedTop3 (withFallback L0) with hprobs
  by_cases h0 : L0 = []
  · have h1 := addAll_eq_nil (hL0 ▸ h0)
    have h2 := addAll_eq_nil h1.1
    have hpv : probs = [fallbackProblem] := by rw [hprobs, h0]; rfl
    rw [h2.2, h1.2, hpv]
    rfl
  · have hL : withFallback L0 = L0 := by
      simp only [withFallback, List.isEmpty_iff, h0, if_false]
    rcases addAll_append_decomp sp probs with ⟨D1, hD1, hD1m⟩
    rcases addAll_append_decomp vit (addAll probs sp) with ⟨D2, hD2, hD2m⟩
    have hpre2 : addAll (addAll probs sp) vit = probs ++ (D1 ++ D2) := by
      rw [hD2, hD1, List.append_assoc]
    set S := stableSortByKey priorityWeight (dedupFirst L0) with hS
    have hprobsS : probs = S.take 3 := by rw [hprobs, hL]; rfl
    have hSnodup : S.Nodup :=
      (stableSortByKey_perm priorityWeight (dedupFirst L0)).symm.nodup (nodup_dedupFirst L0)
    have hSsorted : S.Pairwise (fun a b => priorityWeight a ≤ priorityWeight b) :=
      pairwise_stableSortByKey priorityWeight _
    have hprobsNodup : probs.Nodup := by
      rw [hprobsS]; exact (List.take_sublist 3 S).nodup hSnodup
    have hprobsSorted : probs.Pairwise (fun a b => priorityWeight a ≤ priorityWeight b) := by
      rw [hprobsS]; exact List.Pairwise.sublist (List.take_sublist 3 S) hSsorted
    have hnewmem : ∀ d ∈ D1 ++ D2, d ∈ S ∧ d ∉ probs := by
      intro d hd
      have hdd : (d ∈ sp ∨ d ∈ vit) ∧ d ∉ probs := by
        rcases List.mem_append.mp hd with h | h
        · exact ⟨Or.inl (hD1m d h).1, (hD1m d h).2⟩
        · refine ⟨Or.inr (hD2m d h).1, fun hc => (hD2m d h).2 ?_⟩
          rw [hD1]; exact List.mem_append.mpr (Or.inl hc)
      have hdL0 : d ∈ L0 := by
        rcases hdd.1 with h | h
        · exact mem_addAll_of_mem_left (mem_addAll_of_mem_right h P0)
        · exact mem_addAll_of_mem_right h _
      exact ⟨(mem_stableSortByKey priorityWeight).mpr (mem_dedupFirst.mpr hdL0), hdd.2⟩
    have hdrop : ∀ d ∈ D1 ++ D2, d ∈ S.drop 3 := by
      intro d hd
      have hdS : d ∈ S.take 3 ++ S.drop 3 := by
        rw [List.take_append_drop]; exact (hnewmem d hd).1
      rcases List.mem_append.mp hdS with h | h
      · exact absurd (by rw [hprobsS]; exact h) (hnewmem d hd).2
      · exact h
    have hle : ∀ p ∈ probs, ∀ d ∈ D1 ++ D2, priorityWeight p ≤ priorityWeight d := by
      intro p hp d hd
      have hpw : (S.take 3 ++ S.drop 3).Pairwise
          (fun a b => priorityWeight a ≤ priorityWeight b) := by
        rw [List.take_append_drop]; exact hSsorted
      have hp3 : p ∈ S.take 3 := by rw [← hprobsS]; exact hp
      exact (List.pairwise_append.mp hpw).2.2 p hp3 d (hdrop d hd)
    have hpre2nodup : (probs ++ (D1 ++ D2)).Nodup := by
      rw [← hpre2]; exact nodup_addAll (nodup_addAll hprobsNodup)
    have hne2 : probs ≠ [] := by
      rw [hprobs]; exact rankedTop3_ne_nil (by rw [hL]; exact h0)
    rw [hpre2]
    have hwf2 : withFallback (probs ++ (D1 ++ D2)) = probs ++ (D1 ++ D2) := by
      have hne : (probs ++ (D1 ++ D2)) ≠ [] := fun hc => hne2 (List.append_eq_nil.mp hc).1
      simp [withFallback, List.isEmpty_iff, hne]
    rw [hwf2]
    show (stableSortByKey priorityWeight (dedupFirst (probs ++ (D1 ++ D2)))).take 3 = probs
    rw [dedupFirst_of_nodup hpre2nodup,
      stableSortByKey_append_of_le priorityWeight hprobsSorted hle]
    have hlenle : probs.length ≤ 3 := by rw [hprobs]; exact rankedTop3_length_le _
    rcases Nat.lt_or_ge probs.length 3 with hlt | hge
    · have hD : D1 ++ D2 = [] := by
        rw [List.eq_nil_iff_forall_not_mem]
        intro d hd
        have hlenS : S.length < 3 := by
          have htk := List.length_take 3 S
          have : probs.length = min 3 S.length := by rw [hprobsS, htk]
          omega
        have hdrop0 : S.drop 3 = [] := List.drop_eq_nil_of_le (by omega)
        have := hdrop d hd
        rw [hdrop0] at this
        cases this
      rw [hD]
      show (probs ++ stableSortByKey priorityWeight []).take 3 = probs
      rw [show stableSortByKey priorityWeight ([] : List String) = [] from rfl]
      rw [List.append_nil]
      exact List.take_of_length_le hlenle
    · have hlen3 : probs.length = 3 := le_antisymm hlenle hge
      rw [List.take_append_eq_append_take, List.take_of_length_le hlenle, hlen3]
      simp

end EHR

namespace EHR

theorem regenAllTasks_fields (pid now : Nat) :
    ∀ (ds : List String) (d : DB),
      ((regenAllTasks d pid now ds).assessments = d.assessments)
      ∧ ((regenAllTasks d pid now ds).nurse_notes = d.nurse_notes)
      ∧ ((regenAllTasks d pid now ds).medications = d.medications)
      ∧ ((regenAllTasks d pid now ds).patient_priorities = d.patient_priorities)
      ∧ ((regenAllTasks d pid now ds).ai_alerts = d.ai_alerts)
      ∧ ((regenAllTasks d pid now ds).patients = d.patients)
      ∧ ((regenAllTasks d pid now ds).nurses = d.nurses)
      ∧ ((regenAllTasks d pid now ds).med_administrations = d.med_administrations) := by
  intro ds
  induction ds with
  | nil => intro d; exact ⟨rfl, rfl, rfl, rfl, rfl, rfl, rfl, rfl⟩
  | cons x xs ih => intro d; exact ih (regenTask d pid x now)

theorem generate_ai_alerts_fields (d : DB) (now pid : Nat) :
    ((generate_ai_alerts d now pid).assessments = d.assessments)
    ∧ ((generate_ai_alerts d now pid).nurse_notes = d.nurse_notes)
    ∧ ((generate_ai_alerts d now pid).medications = d.medications)
    ∧ ((generate_ai_alerts d now pid).patient_priorities = d.patient_priorities)
    ∧ ((generate_ai_alerts d now pid).ai_tasks = d.ai_tasks)
    ∧ ((generate_ai_alerts d now pid).patients = d.patients)
    ∧ ((generate_ai_alerts d now pid).nurses = d.nurses)
    ∧ ((generate_ai_alerts d now pid).med_administrations = d.med_administrations) := by
  cases hl : latestAssessment d pid <;>
    simp [generate_ai_alerts, hl]

theorem latestAssessment_congr {d e : DB} (h : d.assessments = e.assessments) (pid : Nat) :
    latestAssessment d pid = latestAssessment e pid := by
  unfold latestAssessment
  rw [h]

theorem extract_problems_congr {d e : DB} (h : d.nurse_notes = e.nurse_notes) (pid : Nat) :
    extract_problems_from_nurse_notes d pid = extract_problems_from_nurse_notes e pid := by
  unfold extract_problems_from_nurse_notes latestNote
  rw [h]

theorem hasBisoprolol_congr {d e : DB} (h : d.medications = e.medications) (pid : Nat) :
    hasBisoprolol d pid = hasBisoprolol e pid := by
  unfold hasBisoprolol
  rw [h]

theorem computedAlerts_congr {d e : DB} (h : d.medications = e.medications)
    (pid : Nat) (a : AssessmentRow) :
    computedAlerts d pid a = computedAlerts e pid a := by
  unfold computedAlerts alertRules
  rw [hasBisoprolol_congr h]

theorem alertPairsOf_congr {d e : DB} (h : d.ai_alerts = e.ai_alerts) (pid : Nat) :
    alertPairsOf d pid = alertPairsOf e pid := by
  unfold alertPairsOf
  rw [h]

theorem openPairsOf_congr {d e : DB} (h : d.ai_tasks = e.ai_tasks) (pid : Nat) :
    openPairsOf d pid = openPairsOf e pid := by
  unfold openPairsOf
  rw [h]

theorem run_assessments (db : DB) (now pid : Nat) :
    (generate_priorities_and_tasks db now pid).assessments = db.assessments := by
  unfold generate_priorities_and_tasks
  rw [(generate_ai_alerts_fields _ now pid).1, (regenAllTasks_fields pid now _ _).1]
  rfl

theorem run_nurse_notes (db : DB) (now pid : Nat) :
    (generate_priorities_and_tasks db now pid).nurse_notes = db.nurse_notes := by
  unfold generate_priorities_and_tasks
  rw [(generate_ai_alerts_fields _ now pid).2.1, (regenAllTasks_fields pid now _ _).2.1]
  rfl

theorem run_medications (db : DB) (now pid : Nat) :
    (generate_priorities_and_tasks db now pid).medications = db.medications := by
  unfold generate_priorities_and_tasks
  rw [(generate_ai_alerts_fields _ now pid).2.2.1, (regenAllTasks_fields pid now _ _).2.2.1]
  rfl

theorem run_patient_priorities (db : DB) (now pid : Nat) :
    (generate_priorities_and_tasks db now pid).patient_priorities
      = db.patient_priorities.filter (fun r => !(r.patient_id == pid))
          ++ rankRows pid 1 (computeProblems db pid) := by
  unfold generate_priorities_and_tasks
  rw [(generate_ai_alerts_fields _ now pid).2.2.2.1,
    (regenAllTasks_fields pid now _ _).2.2.2.1]
  rfl

theorem rankRows_filter_pid (pid : Nat) :
    ∀ (r : Nat) (l : List String),
      (rankRows pid r l).filter (·.patient_id == pid) = rankRows pid r l := by
  intro r l
  induction l generalizing r with
  | nil => rfl
  | cons p ps ih => simp [rankRows, List.filter_cons, ih]

theorem rankRows_rank_ge (pid : Nat) :
    ∀ (r : Nat) (l : List String) (q : PriorityRow), q ∈ rankRows pid r l →
      r ≤ q.priority_rank := by
  intro r l
  induction l generalizing r with
  | nil => intro q hq; cases hq
  | cons p ps ih =>
    intro q hq
    rcases List.mem_cons.mp hq with rfl | hq
    · exact le_refl _
    · exact le_trans (Nat.le_succ r) (ih (r + 1) q hq)

theorem rankRows_pairwise (pid : Nat) :
    ∀ (r : Nat) (l : List String),
      (rankRows pid r l).Pairwise (fun a b => a.priority_rank ≤ b.priority_rank) := by
  intro r l
  induction l generalizing r with
  | nil => exact List.Pairwise.nil
  | cons p ps ih =>
    refine List.pairwise_cons.mpr ⟨?_, ih (r + 1)⟩
    intro q hq
    exact le_trans (Nat.le_succ r) (rankRows_rank_ge pid (r + 1) ps q hq)

theorem rankRows_map_problem (pid : Nat) :
    ∀ (r : Nat) (l : List String), (rankRows pid r l).map (·.problem) = l := by
  intro r l
  induction l generalizing r with
  | nil => rfl
  | cons p ps ih => simp [rankRows, ih]

theorem rankRows_rank_lt_pairwise (pid : Nat) :
    ∀ (r : Nat) (l : List String),
      (rankRows pid r l).Pairwise (fun a b => a.priority_rank < b.priority_rank) := by
  intro r l
  induction l generalizing r with
  | nil => exact List.Pairwise.nil
  | cons p ps ih =>
    refine List.pairwise_cons.mpr ⟨?_, ih (r + 1)⟩
    intro q hq
    exact lt_of_lt_of_le (Nat.lt_succ_self r) (rankRows_rank_ge pid (r + 1) ps q hq)

theorem filter_pid_replace (old : List PriorityRow) (pid : Nat) (probs : List String) :
    (old.filter (fun r => !(r.patient_id == pid)) ++ rankRows pid 1 probs).filter
        (·.patient_id == pid)
      = rankRows pid 1 probs := by
  rw [List.filter_append, List.filter_filter, rankRows_filter_pid]
  have : old.filter (fun r => (r.patient_id == pid) && !(r.patient_id == pid)) = [] := by
    simp
  rw [this, List.nil_append]

theorem run_prioritiesOf (db : DB) (now pid : Nat) :
    prioritiesOf (generate_priorities_and_tasks db now pid) pid
      = (rankRows pid 1 (computeProblems db pid)).map
          (fun q => (q.priority_rank, q.problem)) := by
  unfold prioritiesOf
  rw [run_patient_priorities, filter_pid_replace]

theorem run_storedProblems (db : DB) (now pid : Nat) :
    storedProblems (generate_priorities_and_tasks db now pid) pid
      = computeProblems db pid := by
  unfold storedProblems
  rw [run_patient_priorities, filter_pid_replace]
  rw [stableSortByKey_of_sorted (fun q : PriorityRow => q.priority_rank)
    (rankRows_pairwise pid 1 (computeProblems db pid))]
  rw [rankRows_map_problem]

theorem run_computeProblems (db : DB) (now pid : Nat) :
    computeProblems (generate_priorities_and_tasks db now pid) pid
      = computeProblems db pid := by
  have hsp := extract_problems_congr (run_nurse_notes db now pid) pid
  have hla := latestAssessment_congr (run_assessments db now pid) pid
  have hst := run_storedProblems db now pid
  rw [computeProblems_eq, computeProblems_eq]
  unfold preProblems
  rw [hsp, hla, hst]
  cases hl : latestAssessment db pid with
  | none =>
    rw [computeProblems_eq]
    unfold preProblems
    rw [hl]
    have := rankedTop3_stable (storedProblems db pid)
      (extract_problems_from_nurse_notes db pid) []
    simpa [addAll_nil] using this
  | some a =>
    rw [computeProblems_eq]
    unfold preProblems
    rw [hl]
    exact rankedTop3_stable (storedProblems db pid)
      (extract_problems_from_nurse_notes db pid) (vitalsProblems a)

end EHR

namespace EHR

theorem contains_iff {α : Type} [BEq α] [LawfulBEq α] {l : List α} {a : α} :
    l.contains a = true ↔ a ∈ l := by
  simp

theorem map_filter_comm {α β : Type} (f : α → β) (p : β → Bool) (l : List α) :
    (l.filter (fun a => p (f a))).map f = (l.map f).filter p := by
  induction l with
  | nil => rfl
  | cons x xs ih =>
    by_cases h : p (f x) = true
    · simp only [List.filter_cons, List.map_cons, h, if_pos]
      simp only [List.map_cons, ih]
    · simp only [List.filter_cons, List.map_cons, h]
      simp only [Bool.false_eq_true, if_false, ih]

theorem generate_ai_alerts_alertPairs (d : DB) (now pid : Nat) :
    alertPairsOf (generate_ai_alerts d now pid) pid
      = match latestAssessment d pid with
        | none => alertPairsOf d pid
        | some a => computedAlerts d pid a := by
  cases hl : latestAssessment d pid with
  | none => simp [generate_ai_alerts, hl]
  | some a =>
    simp only [generate_ai_alerts, hl]
    unfold alertPairsOf
    simp only [List.filter_append]
    have h1 : (d.ai_alerts.filter (fun r => !(r.patient_id == pid))).filter
        (·.patient_id == pid) = [] := by
      rw [List.filter_filter]
      simp
    have h2 : ((computedAlerts d pid a).map
          (fun p => (⟨pid, p.1, p.2, now⟩ : AlertRow))).filter (·.patient_id == pid)
        = (computedAlerts d pid a).map (fun p => (⟨pid, p.1, p.2, now⟩ : AlertRow)) := by
      rw [← map_filter_comm]
      simp
    rw [h1, h2, List.nil_append, List.map_map]
    have hfun : ((fun (r : AlertRow) => (r.alert, r.severity))
          ∘ fun (p : String × String) => (⟨pid, p.1, p.2, now⟩ : AlertRow)) = id := by
      funext p
      rfl
    rw [hfun, List.map_id]

theorem run_alertPairs (db : DB) (now pid : Nat) :
    alertPairsOf (generate_priorities_and_tasks db now pid) pid
      = match latestAssessment db pid with
        | none => alertPairsOf db pid
        | some a => computedAlerts db pid a := by
  unfold generate_priorities_and_tasks
  have hfields := regenAllTasks_fields pid now (taskDescList (computeProblems db pid))
    (replacePriorities db pid (computeProblems db pid))
  have hass : (regenAllTasks (replacePriorities db pid (computeProblems db pid)) pid now
      (taskDescList (computeProblems db pid))).assessments = db.assessments := hfields.1
  have hmed : (regenAllTasks (replacePriorities db pid (computeProblems db pid)) pid now
      (taskDescList (computeProblems db pid))).medications = db.medications := hfields.2.2.1
  have halerts : (regenAllTasks (replacePriorities db pid (computeProblems db pid)) pid now
      (taskDescList (computeProblems db pid))).ai_alerts = db.ai_alerts := hfields.2.2.2.2.1
  rw [generate_ai_alerts_alertPairs, latestAssessment_congr hass pid]
  cases hl : latestAssessment db pid with
  | none => exact alertPairsOf_congr halerts pid
  | some a => exact computedAlerts_congr hmed pid a

/-- The (description, due) pairs the task-regeneration loop installs: one per
distinct description, surviving occurrence = the last one in the list. -/
def genPairs (now : Nat) : List String → List (String × Option Nat)
  | [] => []
  | d :: ds =>
    if ds.contains d then genPairs now ds
    else (d, some (now + 60 * get_default_interval_hours d)) :: genPairs now ds

theorem genPairs_fst_mem (now : Nat) :
    ∀ (ds : List String), ∀ pr ∈ genPairs now ds, pr.1 ∈ ds := by
  intro ds
  induction ds with
  | nil => intro pr h; cases h
  | cons d ds ih =>
    intro pr h
    simp only [genPairs] at h
    split at h
    · exact List.mem_cons_of_mem d (ih pr h)
    · rcases List.mem_cons.mp h with rfl | h
      · exact List.mem_cons_self _ _
      · exact List.mem_cons_of_mem d (ih pr h)

theorem genPairs_nodup (now : Nat) : ∀ ds : List String, (genPairs now ds).Nodup := by
  intro ds
  induction ds with
  | nil => exact List.nodup_nil
  | cons d ds ih =>
    simp only [genPairs]
    split
    · exact ih
    · next hnc =>
      refine List.nodup_cons.mpr ⟨?_, ih⟩
      intro hmem
      exact hnc (contains_iff.mpr (genPairs_fst_mem now ds _ hmem))

theorem regenTask_openPairs (d : DB) (pid : Nat) (desc : String) (now : Nat) :
    openPairsOf (regenTask d pid desc now) pid
      = (openPairsOf d pid).filter (fun pr => !(pr.1 == desc))
        ++ [(desc, some (now + 60 * get_default_interval_hours desc))] := by
  unfold openPairsOf regenTask
  simp only [List.filter_append, List.map_append]
  congr 1
  · rw [List.filter_filter, ← map_filter_comm, List.filter_filter]
    congr 1
    apply List.filter_congr
    intro t _
    cases hpid : t.patient_id == pid <;> cases hcomp : t.completed <;>
      cases hdesc : t.description == desc <;> simp [hpid, hcomp, hdesc]
  · simp

theorem regenAllTasks_openPairs (pid now : Nat) :
    ∀ (ds : List String) (d : DB),
      openPairsOf (regenAllTasks d pid now ds) pid
        = (openPairsOf d pid).filter (fun pr => !(ds.contains pr.1)) ++ genPairs now ds := by
  intro ds
  induction ds with
  | nil =>
    intro d
    show openPairsOf d pid = _
    simp [genPairs]
  | cons desc ds ih =>
    intro d
    have h1 : regenAllTasks d pid now (desc :: ds)
        = regenAllTasks (regenTask d pid desc now) pid now ds := rfl
    rw [h1, ih, regenTask_openPairs, List.filter_append, List.filter_filter]
    have hbase : (openPairsOf d pid).filter
          (fun pr => !(ds.contains pr.1) && !(pr.1 == desc))
        = (openPairsOf d pid).filter (fun pr => !((desc :: ds).contains pr.1)) := by
      apply List.filter_congr
      intro pr _
      by_cases h1 : pr.1 = desc <;> by_cases h2 : pr.1 ∈ ds <;> simp [h1, h2]
    rw [hbase]
    by_cases hc : desc ∈ ds
    · have hgen : genPairs now (desc :: ds) = genPairs now ds := by
        simp [genPairs, hc]
      have hsingle : ([((desc : String), some (now + 60 * get_default_interval_hours desc))]).filter
          (fun pr => !(ds.contains pr.1)) = [] := by
        simp [List.filter_cons, hc]
      rw [hgen, hsingle, List.append_nil]
    · have hgen : genPairs now (desc :: ds)
          = (desc, some (now + 60 * get_default_interval_hours desc)) :: genPairs now ds := by
        simp [genPairs, hc]
      have hsingle : ([((desc : String), some (now + 60 * get_default_interval_hours desc))]).filter
          (fun pr => !(ds.contains pr.1))
          = [(desc, some (now + 60 * get_default_interval_hours desc))] := by
        simp [List.filter_cons, hc]
      rw [hgen, hsingle, List.append_assoc]
      rfl

theorem run_openPairs (db : DB) (now pid : Nat) :
    openPairsOf (generate_priorities_and_tasks db now pid) pid
      = (openPairsOf db pid).filter
          (fun pr => !((taskDescList (computeProblems db pid)).contains pr.1))
        ++ genPairs now (taskDescList (computeProblems db pid)) := by
  unfold generate_priorities_and_tasks
  rw [openPairsOf_congr (generate_ai_alerts_fields _ now pid).2.2.2.2.1 pid]
  rw [regenAllTasks_openPairs]
  rfl

end EHR

namespace EHR

theorem computedAlerts_nodup (d : DB) (pid : Nat) (a : AssessmentRow) :
    (computedAlerts d pid a).Nodup := by
  unfold computedAlerts
  have h1 : ((alertRules d pid a).filter (·.2)).Sublist (alertRules d pid a) :=
    List.filter_sublist _
  refine (h1.map (·.1)).nodup ?_
  show ((alertRules d pid a).map (·.1)).Nodup
  simp only [alertRules, List.map_cons, List.map_nil]
  decide

theorem run_prioritiesOf_nodup (db : DB) (now pid : Nat) :
    (prioritiesOf (generate_priorities_and_tasks db now pid) pid).Nodup := by
  rw [run_prioritiesOf]
  have hpw := rankRows_rank_lt_pairwise pid 1 (computeProblems db pid)
  rw [List.Nodup, List.pairwise_map]
  refine hpw.imp ?_
  intro q r hlt heq
  have : q.priority_rank = r.priority_rank := congrArg Prod.fst heq
  omega

theorem genPairs_filter_self (now : Nat) (ds : List String) :
    (genPairs now ds).filter (fun pr => !(ds.contains pr.1)) = [] := by
  rw [List.eq_nil_iff_forall_not_mem]
  intro pr hpr
  have h := List.mem_filter.mp hpr
  have hm := genPairs_fst_mem now ds pr h.1
  have hcontains := contains_iff.mpr hm
  have hn := h.2
  rw [hcontains] at hn
  cases hn

theorem genPairs_filter_mem (now : Nat) (ds : List String) :
    (genPairs now ds).filter (fun pr => ds.contains pr.1) = genPairs now ds := by
  apply List.filter_eq_self.mpr
  intro pr hpr
  exact contains_iff.mpr (genPairs_fst_mem now ds pr hpr)

/-- C1: calling the full recompute (`generate_priorities_and_tasks`, which
also triggers `generate_ai_alerts`) twice in a row for the same patient, with
the same stored assessments/notes/medications and at a fixed current time,
yields an identical persisted (rank, problem) set, an identical alert
(message, severity) set, and an identical open-task (description, due) set.
The run's own output is duplicate-free: the persisted problems are pairwise
distinct, the regenerated alert pairs are pairwise distinct (whenever an
assessment exists, i.e. whenever the alert set is regenerated at all), and
the open tasks of the regenerated catalog hold exactly one entry per
description. -/
theorem recompute_idempotent (db : DB) (now pid : Nat) :
    prioritiesOf (generate_priorities_and_tasks
        (generate_priorities_and_tasks db now pid) now pid) pid
      = prioritiesOf (generate_priorities_and_tasks db now pid) pid
    ∧ alertPairsOf (generate_priorities_and_tasks
        (generate_priorities_and_tasks db now pid) now pid) pid
      = alertPairsOf (generate_priorities_and_tasks db now pid) pid
    ∧ openPairsOf (generate_priorities_and_tasks
        (generate_priorities_and_tasks db now pid) now pid) pid
      = openPairsOf (generate_priorities_and_tasks db now pid) pid
    ∧ (prioritiesOf (generate_priorities_and_tasks db now pid) pid).Nodup
    ∧ ((latestAssessment db pid).isSome = true →
        (alertPairsOf (generate_priorities_and_tasks db now pid) pid).Nodup)
    ∧ ((openPairsOf (generate_priorities_and_tasks db now pid) pid).filter
        (fun pr => (taskDescList (computeProblems db pid)).contains pr.1)).Nodup := by
  have hcp := run_computeProblems db now pid
  refine ⟨?_, ?_, ?_, ?_, ?_, ?_⟩
  · rw [run_prioritiesOf, run_prioritiesOf, hcp]
  · rw [run_alertPairs (generate_priorities_and_tasks db now pid) now pid,
      latestAssessment_congr (run_assessments db now pid) pid,
      run_alertPairs db now pid]
    cases hl : latestAssessment db pid with
    | none => rfl
    | some a => exact computedAlerts_congr (run_medications db now pid) pid a
  · rw [run_openPairs (generate_priorities_and_tasks db now pid) now pid, hcp,
      run_openPairs db now pid]
    rw [List.filter_append, List.filter_filter]
    have h1 : (openPairsOf db pid).filter
          (fun pr => !((taskDescList (computeProblems db pid)).contains pr.1)
            && !((taskDescList (computeProblems db pid)).contains pr.1))
        = (openPairsOf db pid).filter
            (fun pr => !((taskDescList (computeProblems db pid)).contains pr.1)) := by
      apply List.filter_congr
      intro pr _
      exact Bool.and_self _
    rw [h1, genPairs_filter_self]
    simp
  · exact run_prioritiesOf_nodup db now pid
  · intro hs
    rcases Option.isSome_iff_exists.mp hs with ⟨a, hl⟩
    rw [run_alertPairs db now pid, hl]
    exact computedAlerts_nodup db pid a
  · rw [run_openPairs db now pid, List.filter_append, List.filter_filter]
    have h1 : (openPairsOf db pid).filter
          (fun pr => (taskDescList (computeProblems db pid)).contains pr.1
            && !((taskDescList (computeProblems db pid)).contains pr.1)) = [] := by
      simp
    rw [h1, genPairs_filter_mem, List.nil_append]
    exact genPairs_nodup now _

end EHR

namespace EHR

theorem mem_ite_singleton {c : Prop} [Decidable c] {x p : String}
    (h : p ∈ (if c then [x] else ([] : List String))) : p = x := by
  split at h
  · simpa using h
  · cases h

theorem extract_mem_table (db : DB) (pid : Nat) :
    ∀ p ∈ extract_problems_from_nurse_notes db pid,
      p ∈ SPOKEN_PRIORITY_KEYWORDS.map (·.2) := by
  intro p hp
  unfold extract_problems_from_nurse_notes at hp
  cases hn : latestNote db pid with
  | none => rw [hn] at hp; cases hp
  | some row =>
    simp only [hn] at hp
    by_cases hne : (row.note == "") = true
    · rw [if_pos hne] at hp
      cases hp
    · rw [if_neg hne] at hp
      have hp2 := mem_dedupFirst.mp hp
      rcases List.mem_map.mp hp2 with ⟨kw, hkw, hkwe⟩
      exact hkwe ▸ List.mem_map_of_mem (·.2) (List.mem_filter.mp hkw).1

theorem extract_ne_fallback (db : DB) (pid : Nat) :
    ∀ p ∈ extract_problems_from_nurse_notes db pid, p ≠ fallbackProblem := by
  intro p hp heq
  have h := extract_mem_table db pid p hp
  rw [heq] at h
  have : fallbackProblem ∉ SPOKEN_PRIORITY_KEYWORDS.map (·.2) := by decide
  exact this h

theorem vitalsProblems_ne_fallback (a : AssessmentRow) :
    ∀ p ∈ vitalsProblems a, p ≠ fallbackProblem := by
  intro p hp
  unfold vitalsProblems at hp
  simp only [List.mem_append] at hp
  rcases hp with ((((((h | h) | h) | h) | h) | h) | h) | h <;>
    rw [mem_ite_singleton h] <;> decide

theorem computeProblems_length_le (db : DB) (pid : Nat) :
    (computeProblems db pid).length ≤ 3 := by
  rw [computeProblems_eq]
  exact rankedTop3_length_le _

theorem withFallback_ne_nil (l : List String) : withFallback l ≠ [] := by
  unfold withFallback
  split
  · simp
  · next h => simpa [List.isEmpty_iff] using h

theorem computeProblems_ne_nil (db : DB) (pid : Nat) : computeProblems db pid ≠ [] := by
  rw [computeProblems_eq]
  exact rankedTop3_ne_nil (withFallback_ne_nil _)

theorem rankRows_length (pid : Nat) :
    ∀ (r : Nat) (l : List String), (rankRows pid r l).length = l.length := by
  intro r l
  induction l generalizing r with
  | nil => rfl
  | cons p ps ih => simp [rankRows, ih]

theorem rankRows_problem_mem (pid : Nat) :
    ∀ (r : Nat) (l : List String) (q : PriorityRow), q ∈ rankRows pid r l →
      q.problem ∈ l := by
  intro r l q hq
  have := List.mem_map_of_mem (·.problem) hq
  rwa [rankRows_map_problem] at this

/-- If the fallback problem is computed at all while it was not previously
persisted, then nothing else was found and the computed list is exactly the
fallback singleton. -/
theorem computeProblems_fallback_only (db : DB) (pid : Nat)
    (hnp : fallbackProblem ∉ storedProblems db pid)
    (hmem : fallbackProblem ∈ computeProblems db pid) :
    computeProblems db pid = [fallbackProblem] := by
  rw [computeProblems_eq] at hmem ⊢
  have hinw : fallbackProblem ∈ withFallback (preProblems db pid) :=
    mem_of_mem_rankedTop3 hmem
  by_cases hpre : preProblems db pid = []
  · rw [hpre]
    rfl
  · exfalso
    have hw : withFallback (preProblems db pid) = preProblems db pid := by
      simp [withFallback, List.isEmpty_iff, hpre]
    rw [hw] at hinw
    unfold preProblems at hinw
    have hsplit : fallbackProblem ∈ storedProblems db pid
        ∨ fallbackProblem ∈ extract_problems_from_nurse_notes db pid
        ∨ (∃ a, latestAssessment db pid = some a ∧ fallbackProblem ∈ vitalsProblems a) := by
      cases hl : latestAssessment db pid with
      | none =>
        rw [hl] at hinw
        rcases mem_addAll hinw with h | h
        · exact Or.inl h
        · exact Or.inr (Or.inl h)
      | some a =>
        rw [hl] at hinw
        rcases mem_addAll hinw with h | h
        · rcases mem_addAll h with h2 | h2
          · exact Or.inl h2
          · exact Or.inr (Or.inl h2)
        · exact Or.inr (Or.inr ⟨a, rfl, h⟩)
    rcases hsplit with h | h | ⟨a, _, h⟩
    · exact hnp h
    · exact extract_ne_fallback db pid _ h rfl
    · exact vitalsProblems_ne_fallback a _ h rfl

/-- C3 (amended): after any run the persisted ranked problem set has at least
1 and at most 3 entries, regardless of how many triggers fire and of the size
of the previously persisted set; and when the fallback problem was not
already among the previously persisted problems, its presence in the new set
implies the new set is exactly the rank-1 fallback singleton.  (The original
claim - fallback only ever coexists with zero other problems - fails: a
previously persisted fallback survives a run that also finds a new problem;
see the counterexample.) -/
theorem priority_cap_and_fallback (db : DB) (now pid : Nat) :
    1 ≤ (prioritiesOf (generate_priorities_and_tasks db now pid) pid).length
    ∧ (prioritiesOf (generate_priorities_and_tasks db now pid) pid).length ≤ 3
    ∧ (fallbackProblem ∉ storedProblems db pid →
        ∀ r : Nat, (r, fallbackProblem) ∈ prioritiesOf (generate_priorities_and_tasks db now pid) pid →
          prioritiesOf (generate_priorities_and_tasks db now pid) pid
            = [(1, fallbackProblem)]) := by
  have hlen : (prioritiesOf (generate_priorities_and_tasks db now pid) pid).length
      = (computeProblems db pid).length := by
    rw [run_prioritiesOf, List.length_map, rankRows_length]
  refine ⟨?_, ?_, ?_⟩
  · rw [hlen]
    have := computeProblems_ne_nil db pid
    have := List.length_pos.mpr this
    omega
  · rw [hlen]
    exact computeProblems_length_le db pid
  · intro hnp r hmem
    rw [run_prioritiesOf] at hmem
    rcases List.mem_map.mp hmem with ⟨q, hq, hqe⟩
    have hprob : q.problem = fallbackProblem := congrArg Prod.snd hqe
    have hfb : fallbackProblem ∈ computeProblems db pid :=
      hprob ▸ rankRows_problem_mem pid 1 _ q hq
    have honly := computeProblems_fallback_only db pid hnp hfb
    rw [run_prioritiesOf, honly]
    rfl

/-- Concrete record store for the C3 counterexample: the fallback problem is
already persisted (as any fresh patient's run leaves it) and the latest nurse
note mentions "schmerz". -/
def c3db : DB :=
  { assessments := [], nurse_notes := [⟨1, "Patient klagt über schmerz", 5, "Mia Gross"⟩],
    medications := [], patient_priorities := [⟨1, 1, "Allgemeines Monitoring / Stabilisierung"⟩],
    ai_tasks := [], ai_alerts := [], patients := [⟨1, some 3⟩], nurses := [⟨3, "Lisa Hans"⟩],
    med_administrations := [], next_task_id := 1, next_med_id := 1 }

/-- C3 counterexample: after the run the persisted set holds the fallback
problem at rank 2 next to the note-derived problem "Starke Schmerzen" at
rank 1, refuting "the fallback is present only when zero other problems are
present". -/
theorem priority_fallback_counterexample :
    prioritiesOf (generate_priorities_and_tasks c3db 100 1) 1
      = [(1, "Starke Schmerzen"), (2, fallbackProblem)]
    ∧ fallbackProblem ≠ "Starke Schmerzen" := by
  constructor
  · decide
  · decide

end EHR

namespace EHR

/-- The sepsis alert text/severity pair. -/
def sepsisAlertPair : String × String :=
  ("⚠️ Sepsisverdacht! Arzt sofort informieren.", "critical")

theorem sepsis_mem_computedAlerts (d : DB) (pid : Nat) (a : AssessmentRow) :
    sepsisAlertPair ∈ computedAlerts d pid a ↔ 2 ≤ qsofaScore a := by
  unfold computedAlerts alertRules
  constructor
  · intro h
    rcases List.mem_map.mp h with ⟨x, hx, hxe⟩
    have hxf := (List.mem_filter.mp hx).1
    have hxc := (List.mem_filter.mp hx).2
    simp only [List.mem_cons, List.not_mem_nil, or_false] at hxf
    rcases hxf with rfl | rfl | rfl | rfl | rfl | rfl
    · exact absurd hxe (show (("Fieber: bitte Infekt abklären", "warning") : String × String)
        ≠ sepsisAlertPair by decide)
    · exact absurd hxe (show (("Schwere Hypoxie! O₂-Gabe prüfen", "critical") : String × String)
        ≠ sepsisAlertPair by decide)
    · exact absurd hxe
        (show (("Hypotonie – Gefahr einer Schocksituation", "critical") : String × String)
          ≠ sepsisAlertPair by decide)
    · exact absurd hxe
        (show (("Tachykardie: mögliche Schmerzen, Fieber oder Hypovolämie", "warning") :
            String × String) ≠ sepsisAlertPair by decide)
    · exact of_decide_eq_true hxc
    · exact absurd hxe
        (show (("Bisoprolol bei niedrigen RR mit Vorsicht verabreichen!", "warning") :
            String × String) ≠ sepsisAlertPair by decide)
  · intro h
    refine List.mem_map.mpr ⟨(sepsisAlertPair, decide (2 ≤ qsofaScore a)), ?_, rfl⟩
    refine List.mem_filter.mpr ⟨?_, by simpa using h⟩
    have : decide (2 ≤ qsofaScore a) = true := decide_eq_true h
    rw [this]
    simp [sepsisAlertPair]

/-- C2 (amended): given a latest assessment, `generate_ai_alerts` emits the
critical sepsis-suspicion alert exactly when the truthiness-guarded qSOFA
score reaches 2, i.e. when at least two of the three conditions
(respiration_rate ≥ 22, systolic_bp < 100, confusion ≥ 5) hold on non-null,
non-zero values.  In particular, with all three conditions holding on stored
values the alert is always emitted; but two conditions already suffice, so
the original "only one or two of the three hold → no alert" fails (see the
counterexample). -/
theorem sepsis_alert_iff (db : DB) (now pid : Nat) (a : AssessmentRow)
    (hl : latestAssessment db pid = some a) :
    ((∃ r, a.respiration_rate = some r ∧ 22 ≤ r)
        ∧ (∃ s, a.systolic_bp = some s ∧ s < 100)
        ∧ (∃ c, a.confusion = some c ∧ 5 ≤ c) →
      sepsisAlertPair ∈ alertPairsOf (generate_ai_alerts db now pid) pid)
    ∧ (sepsisAlertPair ∈ alertPairsOf (generate_ai_alerts db now pid) pid
        ↔ 2 ≤ qsofaScore a) := by
  have halerts : alertPairsOf (generate_ai_alerts db now pid) pid
      = computedAlerts db pid a := by
    rw [generate_ai_alerts_alertPairs, hl]
  constructor
  · rintro ⟨⟨r, hr, hr22⟩, ⟨s, hs, hs100⟩, ⟨c, hc, hc5⟩⟩
    rw [halerts, sepsis_mem_computedAlerts]
    have h1 : truthyGe a.respiration_rate 22 = true := by
      rw [hr]
      simp only [truthyGe, Bool.and_eq_true, bne_iff_ne, ne_eq, decide_eq_true_eq]
      omega
    have h3 : truthyGe a.confusion 5 = true := by
      rw [hc]
      simp only [truthyGe, Bool.and_eq_true, bne_iff_ne, ne_eq, decide_eq_true_eq]
      omega
    unfold qsofaScore
    rw [h1, h3]
    cases truthyLt a.systolic_bp 100 <;> simp
  · rw [halerts]
    exact sepsis_mem_computedAlerts db pid a

/-- Concrete record store for the C2 counterexample: latest assessment with
respiration_rate 25 (≥ 22) and confusion 8 (≥ 5) but systolic_bp 150
(not < 100). -/
def c2a : AssessmentRow :=
  ⟨1, 10, "Mia Gross", some 370, some 80, some 25, some 150, some 95,
    some 2, some 5, some 8⟩

/-- Record store holding only `c2a`. -/
def c2db : DB :=
  { assessments := [c2a], nurse_notes := [], medications := [],
    patient_priorities := [], ai_tasks := [], ai_alerts := [],
    patients := [⟨1, some 3⟩], nurses := [], med_administrations := [],
    next_task_id := 1, next_med_id := 1 }

/-- C2 counterexample: only two of the three sepsis conditions hold
(respiration_rate 25 ≥ 22 and confusion 8 ≥ 5, while systolic_bp 150 is not
below 100), yet `generate_ai_alerts` emits the critical sepsis-suspicion
alert, refuting "if only one or two of the three conditions hold, it does
not emit that alert". -/
theorem sepsis_two_conditions_counterexample :
    latestAssessment c2db 1 = some c2a
    ∧ c2a.respiration_rate = some 25 ∧ c2a.systolic_bp = some 150
    ∧ c2a.confusion = some 8
    ∧ (22 ≤ (25 : Int)) ∧ ¬((150 : Int) < 100) ∧ (5 ≤ (8 : Int))
    ∧ sepsisAlertPair ∈ alertPairsOf (generate_ai_alerts c2db 100 1) 1 := by
  refine ⟨by decide, by decide, by decide, by decide, by decide, by decide, by decide, ?_⟩
  decide

/-- C2 witness: a latest assessment on which all three sepsis conditions hold
on stored values makes the theorem's first half emit the alert. -/
def c2wa : AssessmentRow :=
  ⟨1, 10, "Mia Gross", some 370, some 80, some 24, some 85, some 95,
    some 2, some 5, some 6⟩

/-- Record store holding only `c2wa`. -/
def c2wdb : DB :=
  { assessments := [c2wa], nurse_notes := [], medications := [],
    patient_priorities := [], ai_tasks := [], ai_alerts := [],
    patients := [⟨1, some 3⟩], nurses := [], med_administrations := [],
    next_task_id := 1, next_med_id := 1 }

theorem sepsis_alert_iff_witness :
    sepsisAlertPair ∈ alertPairsOf (generate_ai_alerts c2wdb 100 1) 1
    ∧ 2 ≤ qsofaScore c2wa :=
  ⟨(sepsis_alert_iff c2wdb 100 1 c2wa (by decide)).1
      ⟨⟨24, by decide, by decide⟩, ⟨85, by decide, by decide⟩, ⟨6, by decide, by decide⟩⟩,
    by decide⟩

end EHR

namespace EHR

/-- The problem pipeline restricted to persisted and note-derived problems
(what the spec says still runs when no assessment exists). -/
def computeProblemsNoVitals (db : DB) (pid : Nat) : List String :=
  rankedTop3 (withFallback
    (addAll (storedProblems db pid) (extract_problems_from_nurse_notes db pid)))

/-- C8: for a patient with no stored assessment, `generate_ai_alerts` returns
the record store unchanged (in particular it neither inserts nor deletes
alert rows), while `generate_priorities_and_tasks` still reads, ranks and
re-persists the pre-existing and note-derived problems: the persisted ranked
set equals the vitals-free pipeline output. -/
theorem no_assessment_behavior (db : DB) (now pid : Nat)
    (h : latestAssessment db pid = none) :
    generate_ai_alerts db now pid = db
    ∧ prioritiesOf (generate_priorities_and_tasks db now pid) pid
        = (rankRows pid 1 (computeProblemsNoVitals db pid)).map
            (fun q => (q.priority_rank, q.problem)) := by
  constructor
  · unfold generate_ai_alerts
    rw [h]
  · rw [run_prioritiesOf]
    have : computeProblems db pid = computeProblemsNoVitals db pid := by
      rw [computeProblems_eq]
      unfold preProblems
      rw [h]
      rfl
    rw [this]

/-- Concrete record store for the C8 witness: no assessments at all, one
pre-existing persisted problem, a stale alert row, and a fall-keyword note. -/
def c8db : DB :=
  { assessments := [], nurse_notes := [⟨1, "Patientin ist fast gefallen", 7, "Karl Loch"⟩],
    medications := [], patient_priorities := [⟨1, 1, "Schmerzen"⟩],
    ai_tasks := [], ai_alerts := [⟨1, "alter Alarm", "warning", 1⟩],
    patients := [⟨1, some 2⟩], nurses := [⟨2, "Karl Loch"⟩],
    med_administrations := [], next_task_id := 1, next_med_id := 1 }

theorem no_assessment_behavior_witness :
    generate_ai_alerts c8db 100 1 = c8db
    ∧ prioritiesOf (generate_priorities_and_tasks c8db 100 1) 1
        = [(1, "Sturz- und Dekubitusrisiko"), (2, "Schmerzen")] := by
  have h := no_assessment_behavior c8db 100 1 (by decide)
  refine ⟨h.1, ?_⟩
  rw [h.2]
  decide

end EHR

namespace EHR

theorem find?_map_preserve_id (l : List TaskRow) (tid : Nat) (f : TaskRow → TaskRow)
    (hf : ∀ r, (f r).id = r.id) :
    (l.map f).find? (fun r => r.id == tid) = (l.find? (fun r => r.id == tid)).map f := by
  have hfun : ((fun (r : TaskRow) => r.id == tid) ∘ f) = (fun r => r.id == tid) := by
    funext r
    simp [Function.comp, hf r]
  rw [List.find?_map, hfun]

/-- C4: toggling an open AI task with description D and parseable due time T
marks exactly that row completed and appends exactly one new open task with
description D due at T + interval(D); toggling the now-completed row again
reopens it and deletes exactly the open tasks of the same
(patient, description) whose due time is strictly after T, never touching
rows whose due time is at or before T. -/
theorem toggle_ai_recurrence (db : DB) (now task_id : Nat) (t : TaskRow) (T : Nat)
    (h : db.ai_tasks.find? (fun r => r.id == task_id) = some t)
    (hc : t.completed = false)
    (hd : t.due_time = some T) :
    (toggle_task_ai db now task_id).ai_tasks
      = db.ai_tasks.map (fun r => if r.id == task_id then { r with completed := true } else r)
        ++ [⟨db.next_task_id, t.patient_id, t.description,
              some (T + 60 * get_default_interval_hours t.description), false⟩]
    ∧ (∀ now2, (toggle_task_ai (toggle_task_ai db now task_id) now2 task_id).ai_tasks
        = ((toggle_task_ai db now task_id).ai_tasks.map
              (fun r => if r.id == task_id then { r with completed := false } else r)).filter
            (fun r => !(r.patient_id == t.patient_id && r.description == t.description
                && !r.completed && dueGtN r.due_time T)))
    ∧ (∀ now2 r, r ∈ (toggle_task_ai db now task_id).ai_tasks →
        dueGtN r.due_time T = false →
        (if r.id == task_id then { r with completed := false } else r)
          ∈ (toggle_task_ai (toggle_task_ai db now task_id) now2 task_id).ai_tasks) := by
  have htid := List.find?_some h
  have hA : (toggle_task_ai db now task_id).ai_tasks
      = db.ai_tasks.map (fun r => if r.id == task_id then { r with completed := true } else r)
        ++ [⟨db.next_task_id, t.patient_id, t.description,
              some (T + 60 * get_default_interval_hours t.description), false⟩] := by
    unfold toggle_task_ai
    simp only [h, hc, Bool.not_false, if_true, hd, Option.getD_some]
  have hfid : ∀ r : TaskRow,
      ((fun r => if r.id == task_id then { r with completed := true } else r) r).id = r.id := by
    intro r
    dsimp only
    split <;> rfl
  have hfind1 : (toggle_task_ai db now task_id).ai_tasks.find? (fun r => r.id == task_id)
      = some { t with completed := true } := by
    rw [hA, List.find?_append, find?_map_preserve_id db.ai_tasks task_id _ hfid, h]
    show some (if (t.id == task_id) = true then { t with completed := true } else t)
      = some { t with completed := true }
    rw [if_pos htid]
  have hB : ∀ now2, (toggle_task_ai (toggle_task_ai db now task_id) now2 task_id).ai_tasks
      = ((toggle_task_ai db now task_id).ai_tasks.map
            (fun r => if r.id == task_id then { r with completed := false } else r)).filter
          (fun r => !(r.patient_id == t.patient_id && r.description == t.description
              && !r.completed && dueGtN r.due_time T)) := by
    intro now2
    conv_lhs => rw [toggle_task_ai]
    simp only [hfind1]
    simp only [Bool.not_true, Bool.false_eq_true, if_false, hd, Option.getD_some]
  refine ⟨hA, hB, ?_⟩
  intro now2 r hr hdue
  rw [hB now2]
  refine List.mem_filter.mpr ⟨List.mem_map_of_mem _ hr, ?_⟩
  set r2 := if (r.id == task_id) = true then ({ r with completed := false } : TaskRow) else r
    with hr2
  have hd2 : dueGtN r2.due_time T = false := by
    rw [hr2]
    split <;> exact hdue
  show (!(r2.patient_id == t.patient_id && r2.description == t.description
      && !r2.completed && dueGtN r2.due_time T)) = true
  rw [hd2]
  simp

/-- Concrete open AI task for the C4 witness. -/
def c4task : TaskRow := ⟨1, 1, "Schmerzskala alle 4h erheben", some 100, false⟩

/-- Record store holding only `c4task`. -/
def c4db : DB :=
  { assessments := [], nurse_notes := [], medications := [],
    patient_priorities := [], ai_tasks := [c4task], ai_alerts := [],
    patients := [⟨1, none⟩], nurses := [], med_administrations := [],
    next_task_id := 5, next_med_id := 1 }

theorem toggle_ai_recurrence_witness :
    (toggle_task_ai c4db 7 1).ai_tasks
      = [⟨1, 1, "Schmerzskala alle 4h erheben", some 100, true⟩,
         ⟨5, 1, "Schmerzskala alle 4h erheben", some 340, false⟩]
    ∧ (toggle_task_ai (toggle_task_ai c4db 7 1) 9 1).ai_tasks
      = [⟨1, 1, "Schmerzskala alle 4h erheben", some 100, false⟩] := by
  have h := toggle_ai_recurrence c4db 7 1 c4task 100 (by decide) (by decide) (by decide)
  constructor
  · rw [h.1]
    decide
  · rw [h.2.1 9, h.1]
    decide

end EHR

namespace EHR

/-- C5 (amended): administering an open dose whose schedule is "alle 4h" and
whose next_due parses to T marks that row given with the current session
nurse recorded as actor and a non-null timestamp, and appends exactly one new
open row with the same (patient, name, dose, route, schedule) due at
T + 4h.  (The original claim's "non-null last_given_by" holds only when a
current nurse is set; with no session nurse the source records NULL - see the
counterexample.) -/
theorem med_given_cycle (db : DB) (now mid : Nat) (nm : String) (m : MedRow) (T : Nat)
    (h : db.medications.find? (fun r => r.id == mid) = some m)
    (hg : m.given = false)
    (hs : m.schedule = "alle 4h")
    (hd : m.next_due = some T) :
    (toggle_task_med db now (some nm) mid MedAction.given).medications
      = db.medications.map (fun r => if r.id == mid then
            { r with given := true, not_given := false,
                     last_given_by := some nm, last_given_at := some now } else r)
        ++ [⟨db.next_med_id, m.patient_id, m.name, m.dose, m.route, m.schedule,
              some (T + 240), false, false, none, none⟩] := by
  have hint : get_med_interval_hours m.schedule = 4 := by
    rw [hs]
    decide
  unfold toggle_task_med
  simp only [h, hg, Bool.not_false, if_true, hd, Option.getD_some, hint]
  rfl

/-- Concrete open dose row with schedule "alle 4h". -/
def c5med : MedRow :=
  ⟨1, 1, "Ibuprofen", "400 mg", "p.o.", "alle 4h", some 100, false, false, none, none⟩

/-- Record store holding only `c5med`. -/
def c5db : DB :=
  { assessments := [], nurse_notes := [], medications := [c5med],
    patient_priorities := [], ai_tasks := [], ai_alerts := [],
    patients := [⟨1, none⟩], nurses := [], med_administrations := [],
    next_task_id := 1, next_med_id := 9 }

/-- C5 counterexample: with no current session nurse, action=given still
resolves the row and spawns the next dose, but records a NULL actor
(last_given_by = none), refuting the claimed unconditionally "non-null
last_given_by actor". -/
theorem med_actor_null_counterexample :
    (toggle_task_med c5db 50 none 1 MedAction.given).medications
      = [⟨1, 1, "Ibuprofen", "400 mg", "p.o.", "alle 4h", some 100, true, false,
            none, some 50⟩,
         ⟨9, 1, "Ibuprofen", "400 mg", "p.o.", "alle 4h", some 340, false, false,
            none, none⟩] := by
  decide

theorem med_given_cycle_witness :
    (toggle_task_med c5db 50 (some "Mia Gross") 1 MedAction.given).medications
      = [⟨1, 1, "Ibuprofen", "400 mg", "p.o.", "alle 4h", some 100, true, false,
            some "Mia Gross", some 50⟩,
         ⟨9, 1, "Ibuprofen", "400 mg", "p.o.", "alle 4h", some 340, false, false,
            none, none⟩] := by
  rw [med_given_cycle c5db 50 1 "Mia Gross" c5med 100 (by decide) (by decide)
    (by decide) (by decide)]
  decide

/-- C7 (amended): a resolved dose row is terminal only against the action of
the SAME kind: repeating that action undoes the row back to open (clearing
flags and actor fields and deleting forward-dated open copies of the same
patient/name/schedule); but an action of the OPPOSITE kind re-resolves the
row to the other state, overwrites the actor fields, and spawns one
additional next-dose row.  (The original "the only state change any med
action performs on a resolved row is the undo" fails - see the
counterexample.) -/
theorem med_resolved_actions (db : DB) (now : Nat) (nurse : Option String) (mid : Nat)
    (m : MedRow)
    (h : db.medications.find? (fun r => r.id == mid) = some m) :
    (m.given = true →
      (toggle_task_med db now nurse mid MedAction.given).medications
        = (db.medications.map (fun r => if r.id == mid then
              { r with given := false, not_given := false,
                       last_given_by := none, last_given_at := none } else r)).filter
            (fun r => !(r.patient_id == m.patient_id && r.name == m.name
                && r.schedule == m.schedule && !r.given && !r.not_given
                && dueGtN r.next_due (m.next_due.getD now))))
    ∧ (m.given = true → m.not_given = false →
      (toggle_task_med db now nurse mid MedAction.not_given).medications
        = db.medications.map (fun r => if r.id == mid then
              { r with not_given := true, given := false,
                       last_given_by := nurse, last_given_at := some now } else r)
          ++ [⟨db.next_med_id, m.patient_id, m.name, m.dose, m.route, m.schedule,
                some (m.next_due.getD now + 60 * get_med_interval_hours m.schedule),
                false, false, none, none⟩])
    ∧ (m.not_given = true →
      (toggle_task_med db now nurse mid MedAction.not_given).medications
        = (db.medications.map (fun r => if r.id == mid then
              { r with not_given := false, given := false,
                       last_given_by := none, last_given_at := none } else r)).filter
            (fun r => !(r.patient_id == m.patient_id && r.name == m.name
                && r.schedule == m.schedule && !r.given && !r.not_given
                && dueGtN r.next_due (m.next_due.getD now))))
    ∧ (m.not_given = true → m.given = false →
      (toggle_task_med db now nurse mid MedAction.given).medications
        = db.medications.map (fun r => if r.id == mid then
              { r with given := true, not_given := false,
                       last_given_by := nurse, last_given_at := some now } else r)
          ++ [⟨db.next_med_id, m.patient_id, m.name, m.dose, m.route, m.schedule,
                some (m.next_due.getD now + 60 * get_med_interval_hours m.schedule),
                false, false, none, none⟩]) := by
  refine ⟨?_, ?_, ?_, ?_⟩
  · intro hg
    unfold toggle_task_med
    simp only [h, hg, Bool.not_true, Bool.false_eq_true, if_false]
  · intro _ hng
    unfold toggle_task_med
    simp only [h, hng, Bool.not_false, if_true]
    rfl
  · intro hng
    unfold toggle_task_med
    simp only [h, hng, Bool.not_true, Bool.false_eq_true, if_false]
  · intro _ hg
    unfold toggle_task_med
    simp only [h, hg, Bool.not_false, if_true]
    rfl

/-- Concrete resolved (given) dose row. -/
def c7med : MedRow :=
  ⟨1, 1, "Ibuprofen", "400 mg", "p.o.", "alle 4h", some 100, true, false,
    some "Mia Gross", some 20⟩

/-- Record store holding only `c7med`. -/
def c7db : DB :=
  { assessments := [], nurse_notes := [], medications := [c7med],
    patient_priorities := [], ai_tasks := [], ai_alerts := [],
    patients := [⟨1, none⟩], nurses := [], med_administrations := [],
    next_task_id := 1, next_med_id := 4 }

/-- C7 counterexample: on a row already resolved as given, action=not_given
does NOT merely undo: it re-resolves the row to not_given, overwrites the
actor fields, and spawns an additional next-dose row - refuting "the only
state change any med action performs on that row is the undo back to open". -/
theorem med_opposite_action_counterexample :
    (toggle_task_med c7db 50 (some "Karl Loch") 1 MedAction.not_given).medications
      = [⟨1, 1, "Ibuprofen", "400 mg", "p.o.", "alle 4h", some 100, false, true,
            some "Karl Loch", some 50⟩,
         ⟨4, 1, "Ibuprofen", "400 mg", "p.o.", "alle 4h", some 340, false, false,
            none, none⟩] := by
  decide

theorem med_resolved_actions_witness :
    (toggle_task_med c7db 50 none 1 MedAction.given).medications
      = [⟨1, 1, "Ibuprofen", "400 mg", "p.o.", "alle 4h", some 100, false, false,
            none, none⟩] := by
  rw [(med_resolved_actions c7db 50 none 1 c7med (by decide)).1 (by decide)]
  decide

end EHR

namespace EHR

/-- C6 (amended): `complete_and_schedule_next` is a no-op when no open task
with the exact description exists; otherwise it completes ALL currently open
duplicates of that description and inserts exactly one next occurrence, so
exactly one open instance of the description remains (one per distinct
description, never one per completed duplicate).  The vitals charting path of
the flowsheet handler, by contrast, completes every open task matching the
vitals keyword filter WITHOUT scheduling any next occurrence (it inserts no
row at all) - which is where the original claim's "never zero next
occurrences" fails (see the counterexample). -/
theorem complete_schedule_next_semantics (db : DB) (pid : Nat) (desc : String)
    (hours now : Nat) :
    ((db.ai_tasks.filter
        (fun t => t.patient_id == pid && t.description == desc && !t.completed)) = [] →
      complete_and_schedule_next db pid desc hours now = db)
    ∧ ((db.ai_tasks.filter
        (fun t => t.patient_id == pid && t.description == desc && !t.completed)) ≠ [] →
      (complete_and_schedule_next db pid desc hours now).ai_tasks
        = db.ai_tasks.map (fun t =>
            if t.patient_id == pid && t.description == desc && !t.completed then
              { t with completed := true } else t)
          ++ [⟨db.next_task_id, pid, desc, some (now + 60 * hours), false⟩]
      ∧ ((complete_and_schedule_next db pid desc hours now).ai_tasks.filter
            (fun t => t.patient_id == pid && t.description == desc && !t.completed)).length
          = 1)
    ∧ ((flowsheetVitalsComplete db pid).ai_tasks.length = db.ai_tasks.length)
    ∧ ((flowsheetVitalsComplete db pid).ai_tasks.filter
          (fun t => t.patient_id == pid && !t.completed && vitalsTaskFilter t.description))
        = [] := by
  refine ⟨?_, ?_, ?_, ?_⟩
  · intro hemp
    unfold complete_and_schedule_next
    rw [hemp]
    rfl
  · intro hne
    have hemp : (db.ai_tasks.filter
        (fun t => t.patient_id == pid && t.description == desc && !t.completed)).isEmpty
        = false := by
      simpa [List.isEmpty_iff] using hne
    have heq : (complete_and_schedule_next db pid desc hours now).ai_tasks
        = db.ai_tasks.map (fun t =>
            if t.patient_id == pid && t.description == desc && !t.completed then
              { t with completed := true } else t)
          ++ [⟨db.next_task_id, pid, desc, some (now + 60 * hours), false⟩] := by
      unfold complete_and_schedule_next
      rw [hemp]
      simp only [Bool.false_eq_true, if_false]
    refine ⟨heq, ?_⟩
    rw [heq, List.filter_append]
    have hmap : (db.ai_tasks.map (fun t =>
          if t.patient_id == pid && t.description == desc && !t.completed then
            { t with completed := true } else t)).filter
        (fun t => t.patient_id == pid && t.description == desc && !t.completed) = [] := by
      rw [← map_filter_comm]
      have hfalse : db.ai_tasks.filter (fun t =>
          (fun t => t.patient_id == pid && t.description == desc && !t.completed)
            ((fun t => if t.patient_id == pid && t.description == desc && !t.completed then
                { t with completed := true } else t) t))
          = db.ai_tasks.filter (fun _ => false) := by
        apply List.filter_congr
        intro t _
        dsimp only
        by_cases hcond : (t.patient_id == pid && t.description == desc && !t.completed) = true
        · rw [if_pos hcond]
          simp
        · rw [if_neg hcond]
          exact Bool.not_eq_true _ ▸ (Bool.eq_false_iff.mpr hcond)
      rw [hfalse]
      simp
    rw [hmap, List.nil_append]
    simp
  · exact List.length_map _ _
  · show ((db.ai_tasks.map (fun t =>
        if t.patient_id == pid && !t.completed && vitalsTaskFilter t.description then
          { t with completed := true } else t)).filter
        (fun t => t.patient_id == pid && !t.completed && vitalsTaskFilter t.description)) = []
    rw [← map_filter_comm]
    have hfalse : db.ai_tasks.filter (fun t =>
        (fun t => t.patient_id == pid && !t.completed && vitalsTaskFilter t.description)
          ((fun t => if t.patient_id == pid && !t.completed && vitalsTaskFilter t.description
              then { t with completed := true } else t) t))
        = db.ai_tasks.filter (fun _ => false) := by
      apply List.filter_congr
      intro t _
      dsimp only
      by_cases hcond : (t.patient_id == pid && !t.completed && vitalsTaskFilter t.description)
          = true
      · rw [if_pos hcond]
        have hvt : vitalsTaskFilter ({ t with completed := true } : TaskRow).description
            = vitalsTaskFilter t.description := rfl
        simp [hvt]
      · rw [if_neg hcond]
        exact Bool.not_eq_true _ ▸ (Bool.eq_false_iff.mpr hcond)
    rw [hfalse]
    simp

/-- Record store with one open standing vitals task, for the C6
counterexample. -/
def c6db : DB :=
  { assessments := [], nurse_notes := [], medications := [],
    patient_priorities := [], ai_tasks := [⟨1, 1, "Vitalzeichen nach Standard", some 10, false⟩],
    ai_alerts := [], patients := [⟨1, none⟩], nurses := [], med_administrations := [],
    next_task_id := 2, next_med_id := 1 }

/-- C6 counterexample: charting a vital (the flowsheet task side-effect block
with charted vitals) completes the open "Vitalzeichen nach Standard" task and
schedules NO next occurrence - the task list afterwards holds only the
completed row, refuting "never zero next occurrences for a description that
had an open task completed". -/
theorem flowsheet_vitals_no_next_counterexample :
    (flowsheetTaskEffects c6db 1 true false false 100).ai_tasks
      = [⟨1, 1, "Vitalzeichen nach Standard", some 10, true⟩] := by
  decide

/-- Record store with two open duplicates of the daily-weight task plus an
unrelated open task, for the C6 witness. -/
def c6wdb : DB :=
  { assessments := [], nurse_notes := [], medications := [],
    patient_priorities := [],
    ai_tasks := [⟨1, 1, "Gewicht täglich messen", some 10, false⟩,
                 ⟨2, 1, "Gewicht täglich messen", some 20, false⟩,
                 ⟨3, 1, "Anderes", some 5, false⟩],
    ai_alerts := [], patients := [⟨1, none⟩], nurses := [], med_administrations := [],
    next_task_id := 7, next_med_id := 1 }

theorem complete_schedule_next_semantics_witness :
    (complete_and_schedule_next c6wdb 1 "Gewicht täglich messen" 24 100).ai_tasks
      = [⟨1, 1, "Gewicht täglich messen", some 10, true⟩,
         ⟨2, 1, "Gewicht täglich messen", some 20, true⟩,
         ⟨3, 1, "Anderes", some 5, false⟩,
         ⟨7, 1, "Gewicht täglich messen", some 1540, false⟩]
    ∧ ((complete_and_schedule_next c6wdb 1 "Gewicht täglich messen" 24 100).ai_tasks.filter
          (fun t => t.patient_id == 1 && t.description == "Gewicht täglich messen"
            && !t.completed)).length = 1 := by
  have h := (complete_schedule_next_semantics c6wdb 1 "Gewicht täglich messen" 24 100).2.1
    (by decide)
  exact ⟨by rw [h.1]; decide, h.2⟩

end EHR
namespace EHR

theorem foldl_max_init : ∀ (l : List Nat) (a : Nat), l.foldl max a = max a (l.foldl max 0) := by
  intro l
  induction l with
  | nil => intro a; simp
  | cons x xs ih =>
    intro a
    have h1 : (x :: xs).foldl max a = xs.foldl max (max a x) := rfl
    have h2 : (x :: xs).foldl max 0 = xs.foldl max (max 0 x) := rfl
    rw [h1, h2, ih (max a x), ih (max 0 x)]
    simp [Nat.max_assoc]

theorem exists_snd_eq_bestScore :
    ∀ (l : List (Nat × Nat)), l ≠ [] → ∃ e ∈ l, e.2 = bestScore l := by
  intro l
  induction l with
  | nil => intro h; cases h rfl
  | cons e rest ih =>
    intro _
    have hfold : bestScore (e :: rest) = max e.2 (bestScore rest) := by
      show (rest.map (·.2)).foldl max (max 0 e.2) = _
      rw [foldl_max_init (rest.map (·.2)) (max 0 e.2)]
      simp [bestScore]
    by_cases hr : rest = []
    · subst hr
      refine ⟨e, List.mem_cons_self _ _, ?_⟩
      rw [hfold]
      simp [bestScore]
    · rcases Nat.le_total (bestScore rest) e.2 with hle | hle
      · refine ⟨e, List.mem_cons_self _ _, ?_⟩
        rw [hfold, Nat.max_eq_left hle]
      · rcases ih hr with ⟨f, hf, hfe⟩
        refine ⟨f, List.mem_cons_of_mem _ hf, ?_⟩
        rw [hfold, Nat.max_eq_right hle, hfe]

theorem headD_mem {α : Type} {l : List α} (h : l ≠ []) (d : α) : l.headD d ∈ l := by
  cases l with
  | nil => cases h rfl
  | cons a t => exact List.mem_cons_self a t

theorem winners_pair_mem {scores : List (Nat × Nat)} {w : Nat}
    (hw : w ∈ winnersOf scores) : (w, bestScore scores) ∈ scores := by
  rcases List.mem_map.mp hw with ⟨e, he, hee⟩
  have h1 := (List.mem_filter.mp he).1
  have h2 : e.2 = bestScore scores := by
    simpa using (List.mem_filter.mp he).2
  have : e = (w, bestScore scores) := Prod.ext hee h2
  rw [← this]
  exact h1

theorem winnersOf_ne_nil {scores : List (Nat × Nat)} (h : scores ≠ []) :
    winnersOf scores ≠ [] := by
  rcases exists_snd_eq_bestScore scores h with ⟨e, he, hee⟩
  intro hnil
  have hmem : e.1 ∈ winnersOf scores :=
    List.mem_map_of_mem _ (List.mem_filter.mpr ⟨he, by simp [hee]⟩)
  rw [hnil] at hmem
  cases hmem

theorem chooseNurse_pair_mem (scores : List (Nat × Nat)) (cur : Option Nat)
    (h : scores ≠ []) : (chooseNurse scores cur, bestScore scores) ∈ scores := by
  cases cur with
  | none => exact winners_pair_mem (headD_mem (winnersOf_ne_nil h) 0)
  | some c =>
    show ((if (winnersOf scores).contains c then c else (winnersOf scores).headD 0),
        bestScore scores) ∈ scores
    split
    · next hc => exact winners_pair_mem (contains_iff.mp hc)
    · exact winners_pair_mem (headD_mem (winnersOf_ne_nil h) 0)

theorem chooseNurse_keeps_current (scores : List (Nat × Nat)) (cur : Nat)
    (h : (cur, bestScore scores) ∈ scores) : chooseNurse scores (some cur) = cur := by
  have hw : cur ∈ winnersOf scores := by
    refine List.mem_map_of_mem (·.1) (List.mem_filter.mpr ⟨h, ?_⟩)
    simp
  show (if (winnersOf scores).contains cur then cur else (winnersOf scores).headD 0) = cur
  rw [if_pos (contains_iff.mpr hw)]

/-- C9: `update_bezugspflege_by_interactions` is a no-op when no scored
activity exists (it never clears an existing assignment); otherwise it writes
exactly one nurse id onto the patient row, that nurse holds the maximum
weighted score (2 per authored note, 1 per authored assessment, 1 per
administered dose), and when the currently assigned nurse is among the tied
top scorers the current assignee is kept. -/
theorem bezugspflege_assignment (db : DB) (pid : Nat) (p : PatientRow)
    (hp : db.patients.find? (fun q => q.id == pid) = some p) :
    (interactionScores db pid = [] → update_bezugspflege_by_interactions db pid = db)
    ∧ (interactionScores db pid ≠ [] →
        (update_bezugspflege_by_interactions db pid).patients
          = db.patients.map (fun q =>
              if q.id == pid then
                { q with
                  bezugspflege_id := some (chooseNurse (interactionScores db pid) p.bezugspflege_id) }
              else q)
        ∧ (chooseNurse (interactionScores db pid) p.bezugspflege_id,
            bestScore (interactionScores db pid)) ∈ interactionScores db pid
        ∧ (∀ cur, p.bezugspflege_id = some cur →
            (cur, bestScore (interactionScores db pid)) ∈ interactionScores db pid →
            chooseNurse (interactionScores db pid) p.bezugspflege_id = cur)) := by
  constructor
  · intro hemp
    unfold update_bezugspflege_by_interactions
    simp only [hemp]
    rfl
  · intro hne
    have hemp : (interactionScores db pid).isEmpty = false := by
      simpa [List.isEmpty_iff] using hne
    refine ⟨?_, chooseNurse_pair_mem _ _ hne, ?_⟩
    · unfold update_bezugspflege_by_interactions
      simp only [hemp, Bool.false_eq_true, if_false, hp]
    · intro cur hcur hmem
      rw [hcur]
      exact chooseNurse_keeps_current _ cur hmem

end EHR

namespace EHR

/-- Concrete record store for the C9 witness: Mia (id 1) has one authored
note (2 points), Karl (id 2) has two authored assessments (2 points); they
tie and Karl is the current assignee, so Karl is kept. -/
def c9db : DB :=
  { assessments := [⟨1, 4, "Karl Loch", none, none, none, none, none, none, none, none⟩,
                    ⟨1, 6, "Karl Loch", none, none, none, none, none, none, none, none⟩],
    nurse_notes := [⟨1, "Visite erledigt", 5, "Mia Gross"⟩],
    medications := [], patient_priorities := [], ai_tasks := [], ai_alerts := [],
    patients := [⟨1, some 2⟩],
    nurses := [⟨1, "Mia Gross"⟩, ⟨2, "Karl Loch"⟩],
    med_administrations := [], next_task_id := 1, next_med_id := 1 }

theorem bezugspflege_assignment_witness :
    (update_bezugspflege_by_interactions c9db 1).patients = [⟨1, some 2⟩]
    ∧ (chooseNurse (interactionScores c9db 1) (some 2),
        bestScore (interactionScores c9db 1)) ∈ interactionScores c9db 1
    ∧ chooseNurse (interactionScores c9db 1) (some 2) = 2 := by
  have h := (bezugspflege_assignment c9db 1 ⟨1, some 2⟩ (by decide)).2 (by decide)
  refine ⟨?_, h.2.1, h.2.2 2 rfl (by decide)⟩
  rw [h.1]
  decide

theorem nameToId_eq_none {nurses : List NurseRow} {a : String}
    (h : a ∉ nurses.map (·.name)) : nameToId nurses a = none := by
  unfold nameToId
  have hfind : nurses.reverse.find? (fun n => n.name == a) = none := by
    rw [List.find?_eq_none]
    intro n hn
    have hm : n ∈ nurses := List.mem_reverse.mp hn
    have hne : n.name ≠ a := fun he => h (he ▸ List.mem_map_of_mem (·.name) hm)
    simpa using hne
  rw [hfind]
  rfl

theorem foldl_addScore_map_bump (nurses : List NurseRow) (k : Nat) (a : String)
    (ha : nameToId nurses (stripStr a) = none) :
    ∀ (G : List (String × Nat)) (s : List (Nat × Nat)),
      (G.map (fun e => if e.1 == a then (e.1, e.2 + 1) else e)).foldl
          (fun s e => addScore s (nameToId nurses (stripStr e.1)) (k * e.2)) s
        = G.foldl (fun s e => addScore s (nameToId nurses (stripStr e.1)) (k * e.2)) s := by
  intro G
  induction G with
  | nil => intro s; rfl
  | cons e es ih =>
    intro s
    by_cases he : (e.1 == a) = true
    · have hea : e.1 = a := by simpa using he
      have hnone : nameToId nurses (stripStr e.1) = none := by rw [hea]; exact ha
      simp only [List.map_cons, List.foldl_cons, he, if_true]
      rw [hnone]
      exact ih s
    · simp only [List.map_cons, List.foldl_cons, he, Bool.false_eq_true, if_false]
      exact ih _

theorem scoreFold_append_skip (nurses : List NurseRow) (k : Nat)
    (authors : List String) (a : String) (s : List (Nat × Nat))
    (ha : nameToId nurses (stripStr a) = none) :
    scoreFold nurses k (authors ++ [a]) s = scoreFold nurses k authors s := by
  unfold scoreFold
  have hg : groupCounts (authors ++ [a]) = bumpCount (groupCounts authors) a := by
    unfold groupCounts
    rw [List.foldl_append]
    rfl
  rw [hg]
  unfold bumpCount
  by_cases hany : ((groupCounts authors).any (·.1 == a)) = true
  · rw [if_pos hany]
    exact foldl_addScore_map_bump nurses k a ha (groupCounts authors) s
  · rw [if_neg hany, List.foldl_append]
    show addScore _ (nameToId nurses (stripStr a)) (k * 1) = _
    rw [ha]
    rfl

theorem groupCounts_key_mem {α : Type} [BEq α] :
    ∀ (l : List α) (e : α × Nat), e ∈ groupCounts l → e.1 ∈ l := by
  have aux : ∀ (l : List α) (acc : List (α × Nat)) (e : α × Nat),
      e ∈ l.foldl bumpCount acc → (∃ e0 ∈ acc, e.1 = e0.1) ∨ e.1 ∈ l := by
    intro l
    induction l with
    | nil => intro acc e he; exact Or.inl ⟨e, he, rfl⟩
    | cons a as ih =>
      intro acc e he
      rcases ih (bumpCount acc a) e he with ⟨e0, he0, hkey⟩ | hmem
      · unfold bumpCount at he0
        split at he0
        · rcases List.mem_map.mp he0 with ⟨e1, he1, he1e⟩
          refine Or.inl ⟨e1, he1, ?_⟩
          rw [hkey, ← he1e]
          split <;> rfl
        · rcases List.mem_append.mp he0 with h | h
          · exact Or.inl ⟨e0, h, hkey⟩
          · refine Or.inr ?_
            have : e0 = (a, 1) := by simpa using h
            rw [hkey, this]
            exact List.mem_cons_self a as
      · exact Or.inr (List.mem_cons_of_mem a hmem)
  intro l e he
  rcases aux l [] e he with ⟨e0, he0, _⟩ | h
  · cases he0
  · exact h

theorem scoreFold_all_none (nurses : List NurseRow) (k : Nat)
    (authors : List String) (s : List (Nat × Nat))
    (h : ∀ a ∈ authors, nameToId nurses (stripStr a) = none) :
    scoreFold nurses k authors s = s := by
  unfold scoreFold
  have haux : ∀ (groups : List (String × Nat)) (s : List (Nat × Nat)),
      (∀ e ∈ groups, nameToId nurses (stripStr e.1) = none) →
      groups.foldl (fun s e => addScore s (nameToId nurses (stripStr e.1)) (k * e.2)) s
        = s := by
    intro groups
    induction groups with
    | nil => intro s _; rfl
    | cons e es ih =>
      intro s hg
      have hnone := hg e (List.mem_cons_self e es)
      show es.foldl _ (addScore s (nameToId nurses (stripStr e.1)) (k * e.2)) = s
      rw [hnone]
      exact ih s fun f hf => hg f (List.mem_cons_of_mem e hf)
  exact haux (groupCounts authors) s
    (fun e he => h e.1 (groupCounts_key_mem _ e he))

/-- C10 (implicit-claim check): a nurse note or assessment counts toward a
score only via an exact roster-name match of its stripped author: appending a
row whose stripped author is not a roster name leaves the whole score table
unchanged; and when all of the patient's notes and assessments have
non-roster authors and the patient has no administered doses, the score table
is empty and the assignment operation changes nothing. -/
theorem roster_scoring (db : DB) (pid : Nat) :
    (∀ r : NoteRow, stripStr r.author ∉ db.nurses.map (·.name) →
        interactionScores { db with nurse_notes := db.nurse_notes ++ [r] } pid
          = interactionScores db pid)
    ∧ (∀ r : AssessmentRow, stripStr r.author ∉ db.nurses.map (·.name) →
        interactionScores { db with assessments := db.assessments ++ [r] } pid
          = interactionScores db pid)
    ∧ ((∀ r ∈ db.nurse_notes, r.patient_id = pid →
          stripStr r.author ∉ db.nurses.map (·.name)) →
       (∀ r ∈ db.assessments, r.patient_id = pid →
          stripStr r.author ∉ db.nurses.map (·.name)) →
       db.med_administrations.filter (·.patient_id == pid) = [] →
       interactionScores db pid = [] ∧ update_bezugspflege_by_interactions db pid = db) := by
  refine ⟨?_, ?_, ?_⟩
  · intro r hr
    show medFold ((db.med_administrations.filter (·.patient_id == pid)).map (·.nurse_id))
        (scoreFold db.nurses 1 ((db.assessments.filter (·.patient_id == pid)).map (·.author))
          (scoreFold db.nurses 2
            (((db.nurse_notes ++ [r]).filter (·.patient_id == pid)).map (·.author)) []))
      = _
    rw [List.filter_append]
    by_cases hpid : (r.patient_id == pid) = true
    · have hone : ([r].filter (·.patient_id == pid)) = [r] := by
        simp [List.filter_cons, hpid]
      rw [hone, List.map_append]
      simp only [List.map_cons, List.map_nil]
      rw [scoreFold_append_skip db.nurses 2 _ r.author [] (nameToId_eq_none hr)]
      rfl
    · have hnone : ([r].filter (·.patient_id == pid)) = [] := by
        simp [List.filter_cons, hpid]
      rw [hnone, List.append_nil]
      rfl
  · intro r hr
    show medFold ((db.med_administrations.filter (·.patient_id == pid)).map (·.nurse_id))
        (scoreFold db.nurses 1
          (((db.assessments ++ [r]).filter (·.patient_id == pid)).map (·.author))
          (scoreFold db.nurses 2
            ((db.nurse_notes.filter (·.patient_id == pid)).map (·.author)) []))
      = _
    rw [List.filter_append]
    by_cases hpid : (r.patient_id == pid) = true
    · have hone : ([r].filter (·.patient_id == pid)) = [r] := by
        simp [List.filter_cons, hpid]
      rw [hone, List.map_append]
      simp only [List.map_cons, List.map_nil]
      rw [scoreFold_append_skip db.nurses 1 _ r.author _ (nameToId_eq_none hr)]
      rfl
    · have hnone : ([r].filter (·.patient_id == pid)) = [] := by
        simp [List.filter_cons, hpid]
      rw [hnone, List.append_nil]
      rfl
  · intro hnotes hassess hmeds
    have hscores : interactionScores db pid = [] := by
      unfold interactionScores
      rw [hmeds]
      rw [scoreFold_all_none db.nurses 2 _ []
        (fun a ha => by
          rcases List.mem_map.mp ha with ⟨nr, hnr, hnre⟩
          have h1 := (List.mem_filter.mp hnr).1
          have h2 : nr.patient_id = pid := by
            simpa using (List.mem_filter.mp hnr).2
          exact nameToId_eq_none (hnre ▸ hnotes nr h1 h2))]
      rw [scoreFold_all_none db.nurses 1 _ []
        (fun a ha => by
          rcases List.mem_map.mp ha with ⟨nr, hnr, hnre⟩
          have h1 := (List.mem_filter.mp hnr).1
          have h2 : nr.patient_id = pid := by
            simpa using (List.mem_filter.mp hnr).2
          exact nameToId_eq_none (hnre ▸ hassess nr h1 h2))]
      rfl
    refine ⟨hscores, ?_⟩
    unfold update_bezugspflege_by_interactions
    simp only [hscores]
    rfl

/-- Concrete record store for the C10 witness: all documented activity has
non-roster authors ("Anna Müller", " Jonas Weber ") and there are no
administered doses; the assignment stays untouched. -/
def c10db : DB :=
  { assessments := [⟨1, 4, "Anna Müller", none, none, none, none, none, none, none, none⟩],
    nurse_notes := [⟨1, "Patient kurzatmig bei Belastung", 5, " Jonas Weber "⟩],
    medications := [], patient_priorities := [], ai_tasks := [], ai_alerts := [],
    patients := [⟨1, some 2⟩],
    nurses := [⟨1, "Mia Gross"⟩, ⟨2, "Karl Loch"⟩],
    med_administrations := [], next_task_id := 1, next_med_id := 1 }

theorem roster_scoring_witness :
    interactionScores c10db 1 = []
    ∧ update_bezugspflege_by_interactions c10db 1 = c10db
    ∧ interactionScores
        { c10db with nurse_notes := c10db.nurse_notes ++ [⟨1, "noch ein Eintrag", 9, "Eva Frei"⟩] } 1
      = interactionScores c10db 1 := by
  have h := roster_scoring c10db 1
  have h3 := h.2.2 (by decide) (by decide) (by decide)
  exact ⟨h3.1, h3.2, h.1 ⟨1, "noch ein Eintrag", 9, "Eva Frei"⟩ (by decide)⟩

end EHR

namespace EHR

/-- Concrete record store for the C1 witness: a patient with an assessment,
a note, a medication, a pre-existing problem, an open task and a stale
alert. -/
def c1db : DB :=
  { assessments := [⟨1, 10, "Mia Gross", some 390, some 125, some 23, some 88, some 89,
      some 8, some 2, some 6⟩],
    nurse_notes := [⟨1, "Patient ist gestürzt und klagt über atemnot", 8, "Mia Gross"⟩],
    medications := [⟨1, 1, "Bisoprolol", "2.5 mg", "p.o.", "1x morgens", some 480,
      false, false, none, none⟩],
    patient_priorities := [⟨1, 1, "Schmerzen"⟩],
    ai_tasks := [⟨1, 1, "Vitalzeichen nach Standard", some 20, false⟩,
                 ⟨2, 1, "Anderes offenes", some 30, false⟩],
    ai_alerts := [⟨1, "alter Alarm", "warning", 1⟩],
    patients := [⟨1, some 3⟩], nurses := [⟨3, "Mia Gross"⟩],
    med_administrations := [], next_task_id := 3, next_med_id := 2 }

theorem recompute_idempotent_witness :
    (latestAssessment c1db 1).isSome = true
    ∧ (alertPairsOf (generate_priorities_and_tasks c1db 100 1) 1).Nodup :=
  ⟨by decide, (recompute_idempotent c1db 100 1).2.2.2.2.1 (by decide)⟩

/-- Empty record store (one patient, no clinical data) for the C3 witness. -/
def c3wdb : DB :=
  { assessments := [], nurse_notes := [], medications := [],
    patient_priorities := [], ai_tasks := [], ai_alerts := [],
    patients := [⟨1, none⟩], nurses := [], med_administrations := [],
    next_task_id := 1, next_med_id := 1 }

theorem priority_cap_and_fallback_witness :
    prioritiesOf (generate_priorities_and_tasks c3wdb 100 1) 1 = [(1, fallbackProblem)]
    ∧ 1 ≤ (prioritiesOf (generate_priorities_and_tasks c3wdb 100 1) 1).length
    ∧ (prioritiesOf (generate_priorities_and_tasks c3wdb 100 1) 1).length ≤ 3 := by
  have h := priority_cap_and_fallback c3wdb 100 1
  exact ⟨h.2.2 (by decide) 1 (by decide), h.1, h.2.1⟩

end EHR
